import Mathlib

/-!
Verification development for the "ball" repository: a regular polygon that
grows a side on every wall impact, a bouncing circular body, and a bounded
two-tier nested mini-simulation.

The numeric model is the real numbers, idealising IEEE doubles (no rounding),
but JavaScript's special values are tracked faithfully where the code can
produce them: `JSNum` is a real number, an infinity, or `NaN`, and the
arithmetic, comparison, `Math.sqrt` and `Math.hypot` operations on it follow
JavaScript semantics (`0/0 = NaN`, comparisons with `NaN` are false, `NaN`
propagates through arithmetic).  The geometry kernel
(`Polygon.closestPointOnSegment`, `Polygon.collideCircle`) computes with
`JSNum`, exactly as the source does with doubles; simulation-level state
(polygon parameters, ball positions and velocities) is modelled with plain
reals, which is the value range the program keeps them in.
-/

noncomputable section

/-- A JavaScript number: NaN, a signed infinity, or a finite real. -/
inductive JSNum where
  | nan : JSNum
  | inf : Bool → JSNum
  | fin : ℝ → JSNum
  deriving DecidableEq

namespace JSNum

/-- JavaScript unary minus. -/
def neg : JSNum → JSNum
  | nan => nan
  | inf b => inf (!b)
  | fin x => fin (-x)

/-- JavaScript addition. -/
def add : JSNum → JSNum → JSNum
  | nan, _ => nan
  | _, nan => nan
  | inf b, inf c => if b = c then inf b else nan
  | inf b, fin _ => inf b
  | fin _, inf c => inf c
  | fin x, fin y => fin (x + y)

/-- JavaScript subtraction (`x - y = x + (-y)` exactly, also for doubles). -/
def sub (a b : JSNum) : JSNum := add a (neg b)

/-- JavaScript multiplication. -/
def mul : JSNum → JSNum → JSNum
  | nan, _ => nan
  | _, nan => nan
  | inf b, inf c => inf (b = c)
  | inf b, fin x => if x = 0 then nan else if 0 < x then inf b else inf (!b)
  | fin x, inf c => if x = 0 then nan else if 0 < x then inf c else inf (!c)
  | fin x, fin y => fin (x * y)

/-- JavaScript division (signed zeros are idealised away: `0` is `+0`). -/
def div : JSNum → JSNum → JSNum
  | nan, _ => nan
  | _, nan => nan
  | inf _, inf _ => nan
  | inf b, fin x => if 0 ≤ x then inf b else inf (!b)
  | fin _, inf _ => fin 0
  | fin x, fin y =>
      if y = 0 then (if x = 0 then nan else if 0 < x then inf true else inf false)
      else fin (x / y)

instance : Neg JSNum := ⟨neg⟩
instance : Add JSNum := ⟨add⟩
instance : Sub JSNum := ⟨sub⟩
instance : Mul JSNum := ⟨mul⟩
instance : Div JSNum := ⟨div⟩

/-- JavaScript `<` as a boolean: any comparison involving NaN is false. -/
def ltb : JSNum → JSNum → Bool
  | nan, _ => false
  | _, nan => false
  | inf b, inf c => !b && c
  | inf b, fin _ => !b
  | fin _, inf c => c
  | fin x, fin y => decide (x < y)

/-- JavaScript `<=` as a boolean: any comparison involving NaN is false. -/
def leb : JSNum → JSNum → Bool
  | nan, _ => false
  | _, nan => false
  | inf b, inf c => !b || c
  | inf b, fin _ => !b
  | fin _, inf c => c
  | fin x, fin y => decide (x ≤ y)

/-- JavaScript `Math.sqrt`: NaN on negative input. -/
def sqrtJ : JSNum → JSNum
  | nan => nan
  | inf b => if b then inf true else nan
  | fin x => if x < 0 then nan else fin (Real.sqrt x)

/-- JavaScript `Math.hypot` on two arguments: infinite if either argument is
infinite (even when the other is NaN), NaN if either is NaN, else the
Euclidean norm. -/
def hypotJ : JSNum → JSNum → JSNum
  | inf _, _ => inf true
  | _, inf _ => inf true
  | nan, _ => nan
  | _, nan => nan
  | fin x, fin y => fin (Real.sqrt (x * x + y * y))

/-- JavaScript truthiness of a number: `0` and `NaN` are falsy. -/
def falsy : JSNum → Bool
  | nan => true
  | inf _ => false
  | fin x => decide (x = 0)

@[simp] lemma fin_add_fin (x y : ℝ) : fin x + fin y = fin (x + y) := rfl
@[simp] lemma fin_add_nan (x : ℝ) : fin x + nan = nan := rfl
@[simp] lemma nan_add (a : JSNum) : nan + a = nan := by cases a <;> rfl
@[simp] lemma fin_sub_fin (x y : ℝ) : fin x - fin y = fin (x - y) := by
  show add (fin x) (neg (fin y)) = fin (x - y)
  simp [add, neg, sub_eq_add_neg]
@[simp] lemma fin_sub_nan (x : ℝ) : fin x - nan = nan := rfl
@[simp] lemma nan_sub (a : JSNum) : nan - a = nan := by cases a <;> rfl
@[simp] lemma fin_mul_fin (x y : ℝ) : fin x * fin y = fin (x * y) := rfl
@[simp] lemma fin_mul_nan (x : ℝ) : fin x * nan = nan := rfl
@[simp] lemma nan_mul (a : JSNum) : nan * a = nan := by cases a <;> rfl
@[simp] lemma neg_fin (x : ℝ) : -fin x = fin (-x) := rfl
@[simp] lemma fin_div_fin (x y : ℝ) (h : y ≠ 0) : fin x / fin y = fin (x / y) := by
  show div (fin x) (fin y) = fin (x / y)
  simp [div, h]

lemma zero_div_zero : fin 0 / fin 0 = nan := by
  show div (fin 0) (fin 0) = nan
  simp [div]

@[simp] lemma ltb_fin_fin (x y : ℝ) : ltb (fin x) (fin y) = decide (x < y) := rfl
@[simp] lemma ltb_nan_left (a : JSNum) : ltb nan a = false := by cases a <;> rfl
@[simp] lemma ltb_nan_right (a : JSNum) : ltb a nan = false := by cases a <;> rfl
@[simp] lemma ltb_fin_inf (x : ℝ) (b : Bool) : ltb (fin x) (inf b) = b := rfl
@[simp] lemma leb_fin_fin (x y : ℝ) : leb (fin x) (fin y) = decide (x ≤ y) := rfl
@[simp] lemma leb_inf_fin (b : Bool) (x : ℝ) : leb (inf b) (fin x) = !b := rfl
@[simp] lemma leb_nan_left (a : JSNum) : leb nan a = false := by cases a <;> rfl

@[simp] lemma sqrtJ_nan : sqrtJ nan = nan := rfl
@[simp] lemma sqrtJ_fin (x : ℝ) (h : 0 ≤ x) : sqrtJ (fin x) = fin (Real.sqrt x) := by
  simp [sqrtJ, not_lt.mpr h]
@[simp] lemma hypotJ_fin_fin (x y : ℝ) :
    hypotJ (fin x) (fin y) = fin (Real.sqrt (x * x + y * y)) := rfl

end JSNum

open JSNum

/-- `Polygon.closestPointOnSegment(px,py, ax,ay, bx,by)` from polygon.js,
with JavaScript number semantics.  Note the source computes `t = c1 / c2`
with no guard on `c2 = 0`. -/
def Polygon.closestPointOnSegment (px py ax ay bx b_y : JSNum) : JSNum × JSNum :=
  let vx := bx - ax
  let vy := b_y - ay
  let wx := px - ax
  let wy := py - ay
  let c1 := vx * wx + vy * wy
  let c2 := vx * vx + vy * vy
  let t := c1 / c2
  let t1 := if JSNum.ltb t (JSNum.fin 0) then JSNum.fin 0 else t
  let t2 := if JSNum.ltb (JSNum.fin 1) t1 then JSNum.fin 1 else t1
  (ax + vx * t2, ay + vy * t2)

/-- Modelled from the spec (section 4.2): the closest point on a segment with
the degenerate case `|b-a|² = 0` treated as `t = 0`, so that a degenerate
segment returns its start point `a`.  This is the behaviour the spec demands;
the source function `Polygon.closestPointOnSegment` is compared against it. -/
def specClosestPointOnSegment (px py ax ay bx b_y : ℝ) : ℝ × ℝ :=
  let vx := bx - ax
  let vy := b_y - ay
  let wx := px - ax
  let wy := py - ay
  let c1 := vx * wx + vy * wy
  let c2 := vx * vx + vy * vy
  let t := if c2 = 0 then 0 else c1 / c2
  let t1 := if t < 0 then 0 else t
  let t2 := if 1 < t1 then 1 else t1
  (ax + vx * t2, ay + vy * t2)

/-- On a non-degenerate segment (`|b-a|² ≠ 0`) the source function agrees with
the spec's real-valued closest-point computation. -/
lemma closestPointOnSegment_fin (px py ax ay bx b_y : ℝ)
    (h : (bx - ax) * (bx - ax) + (b_y - ay) * (b_y - ay) ≠ 0) :
    Polygon.closestPointOnSegment (fin px) (fin py) (fin ax) (fin ay) (fin bx) (fin b_y)
      = (fin (specClosestPointOnSegment px py ax ay bx b_y).1,
         fin (specClosestPointOnSegment px py ax ay bx b_y).2) := by
  unfold Polygon.closestPointOnSegment specClosestPointOnSegment
  simp only [fin_sub_fin, fin_mul_fin, fin_add_fin]
  rw [fin_div_fin _ _ h]
  simp only [if_neg h, ltb_fin_fin, decide_eq_true_eq]
  by_cases h0 :
      ((bx - ax) * (px - ax) + (b_y - ay) * (py - ay))
        / ((bx - ax) * (bx - ax) + (b_y - ay) * (b_y - ay)) < 0
  · simp only [if_pos h0]
    norm_num
  · by_cases h1 : (1:ℝ) <
        ((bx - ax) * (px - ax) + (b_y - ay) * (py - ay))
          / ((bx - ax) * (bx - ax) + (b_y - ay) * (b_y - ay))
    · simp [h0, h1]
    · simp [h0, h1]

/-- On a degenerate segment (`a = b`) the source function returns `(NaN, NaN)`:
`c2 = 0` forces `c1 = 0`, `t = 0/0 = NaN`, both clamps are skipped because
comparisons with NaN are false, and `a + 0·NaN` is NaN. -/
lemma closestPointOnSegment_degenerate (px py ax ay : ℝ) :
    Polygon.closestPointOnSegment (fin px) (fin py) (fin ax) (fin ay) (fin ax) (fin ay)
      = (JSNum.nan, JSNum.nan) := by
  unfold Polygon.closestPointOnSegment
  simp only [fin_sub_fin, fin_mul_fin, fin_add_fin]
  norm_num [zero_div_zero]

/-- C1: for a degenerate segment `a = b` the spec requires
`closestPointOnSegment` to return `a` itself (treating `|b-a|² = 0` as
`t = 0`), but the source divides by zero: at `p = (1,2)`, `a = b = (3,4)` the
spec-mandated result is `(3,4)` while the code produces `(NaN, NaN)`. -/
theorem closestPointOnSegment_degenerate_nan :
    Polygon.closestPointOnSegment (fin 1) (fin 2) (fin 3) (fin 4) (fin 3) (fin 4)
        = (JSNum.nan, JSNum.nan) ∧
      specClosestPointOnSegment 1 2 3 4 3 4 = (3, 4) := by
  constructor
  · exact closestPointOnSegment_degenerate 1 2 3 4
  · norm_num [specClosestPointOnSegment]

/-- The `Polygon` class state from polygon.js.  `sides` is stored as an
integer: the constructor and `setSides` always store `Math.max(3,
Math.floor(n))`, which is an integer, and it is only ever read as a loop
bound and as a divisor. -/
structure Polygon where
  cx : ℝ
  cy : ℝ
  radius : ℝ
  sides : ℤ
  rotation : ℝ
  vertices : List (ℝ × ℝ)

/-- The vertex list computed by `Polygon.updateVertices`: for `i` from `0`
to `sides - 1`, the point `(cx + cos(rotation + (i/sides)·2π) · radius,
cy + sin(rotation + (i/sides)·2π) · radius)`. -/
def Polygon.computeVertices (cx cy radius : ℝ) (sides : ℤ) (rotation : ℝ) : List (ℝ × ℝ) :=
  (List.range sides.toNat).map fun (i : ℕ) =>
    (cx + Real.cos (rotation + ((i : ℝ) / (sides : ℝ)) * (2 * Real.pi)) * radius,
     cy + Real.sin (rotation + ((i : ℝ) / (sides : ℝ)) * (2 * Real.pi)) * radius)

/-- `Polygon.updateVertices()`. -/
def Polygon.updateVertices (p : Polygon) : Polygon :=
  { p with vertices := Polygon.computeVertices p.cx p.cy p.radius p.sides p.rotation }

/-- The `Polygon` constructor: stores `Math.max(3, Math.floor(sides))` and
immediately calls `updateVertices`. -/
def mkPolygon (cx cy radius : ℝ) (sides : ℝ) (rotation : ℝ) : Polygon :=
  Polygon.updateVertices
    { cx := cx, cy := cy, radius := radius, sides := max 3 ⌊sides⌋,
      rotation := rotation, vertices := [] }

/-- `Polygon.setSides(n)`. -/
def Polygon.setSides (p : Polygon) (n : ℝ) : Polygon :=
  Polygon.updateVertices { p with sides := max 3 ⌊n⌋ }

/-- `Polygon.setRadius(r)`. -/
def Polygon.setRadius (p : Polygon) (r : ℝ) : Polygon :=
  Polygon.updateVertices { p with radius := r }

/-- `Polygon.setCenter(x,y)`. -/
def Polygon.setCenter (p : Polygon) (x y : ℝ) : Polygon :=
  Polygon.updateVertices { p with cx := x, cy := y }

/-- Indexing into a vertex list (all accesses in the source are in range). -/
def vget (l : List (ℝ × ℝ)) (i : ℕ) : ℝ × ℝ := l.getD i (0, 0)

/-- The polygon representation invariant: at least 3 sides and the stored
vertex list agrees with the current parameters. -/
def Polygon.WF (p : Polygon) : Prop :=
  3 ≤ p.sides ∧ p.vertices = Polygon.computeVertices p.cx p.cy p.radius p.sides p.rotation

lemma computeVertices_length (cx cy radius : ℝ) (sides : ℤ) (rotation : ℝ) :
    (Polygon.computeVertices cx cy radius sides rotation).length = sides.toNat := by
  unfold Polygon.computeVertices
  rw [List.length_map, List.length_range]

lemma mkPolygon_WF (cx cy radius sides rotation : ℝ) :
    (mkPolygon cx cy radius sides rotation).WF := by
  refine ⟨le_max_left _ _, rfl⟩

lemma setSides_WF (p : Polygon) (n : ℝ) : (p.setSides n).WF :=
  ⟨le_max_left _ _, rfl⟩

lemma setRadius_WF (p : Polygon) (h : 3 ≤ p.sides) (r : ℝ) : (p.setRadius r).WF :=
  ⟨h, rfl⟩

lemma setCenter_WF (p : Polygon) (h : 3 ≤ p.sides) (x y : ℝ) : (p.setCenter x y).WF :=
  ⟨h, rfl⟩

lemma WF_vertex (p : Polygon) (hp : p.WF) (i : ℕ) (hi : i < p.vertices.length) :
    vget p.vertices i =
      (p.cx + p.radius * Real.cos (p.rotation + (i : ℝ) * (2 * Real.pi) / (p.sides : ℝ)),
       p.cy + p.radius * Real.sin (p.rotation + (i : ℝ) * (2 * Real.pi) / (p.sides : ℝ))) := by
  obtain ⟨h3, hv⟩ := hp
  rw [hv] at hi ⊢
  rw [computeVertices_length] at hi
  unfold vget
  have hlen : i < (Polygon.computeVertices p.cx p.cy p.radius p.sides p.rotation).length := by
    rwa [computeVertices_length]
  rw [List.getD_eq_getElem _ _ hlen]
  unfold Polygon.computeVertices
  simp only [List.getElem_map, List.getElem_range]
  refine Prod.ext ?_ ?_ <;> · simp only; congr 1 <;> ring

/-- C7: after construction and after every `setSides` / `setRadius` /
`setCenter` call the stored side count is an integer at least 3 (`setSides n`
stores `max(3, ⌊n⌋)`), the vertex list has exactly `sides` entries, and
vertex `i` is `(cx + radius·cos θᵢ, cy + radius·sin θᵢ)` with
`θᵢ = rotation + i·2π/sides`; no setter leaves a stale vertex list. -/
theorem polygon_representation_invariant
    (cx cy radius sides rotation n r x y : ℝ) (p : Polygon) (hp : p.WF) :
    (mkPolygon cx cy radius sides rotation).WF ∧
    (p.setSides n).sides = max 3 ⌊n⌋ ∧
    (p.setSides n).WF ∧ (p.setRadius r).WF ∧ (p.setCenter x y).WF ∧
    3 ≤ p.sides ∧ ((p.vertices.length : ℤ) = p.sides) ∧
    (∀ i : ℕ, i < p.vertices.length →
      vget p.vertices i =
        (p.cx + p.radius * Real.cos (p.rotation + (i : ℝ) * (2 * Real.pi) / (p.sides : ℝ)),
         p.cy + p.radius * Real.sin (p.rotation + (i : ℝ) * (2 * Real.pi) / (p.sides : ℝ)))) := by
  refine ⟨mkPolygon_WF _ _ _ _ _, rfl, setSides_WF _ _, setRadius_WF _ hp.1 _,
    setCenter_WF _ hp.1 _ _, hp.1, ?_, fun i hi => WF_vertex p hp i hi⟩
  rw [hp.2, computeVertices_length]
  exact Int.toNat_of_nonneg (le_trans (by norm_num) hp.1)

/-- C7 witness: the invariant instantiated at a concrete pentagon. -/
theorem polygon_representation_invariant_witness :
    (mkPolygon 0 0 1 5 0).WF ∧
    ((mkPolygon 0 0 1 5 0).setSides 7).sides = max 3 ⌊(7 : ℝ)⌋ ∧
    ((mkPolygon 0 0 1 5 0).setSides 7).WF ∧ ((mkPolygon 0 0 1 5 0).setRadius 2).WF ∧
    ((mkPolygon 0 0 1 5 0).setCenter 1 1).WF ∧
    3 ≤ (mkPolygon 0 0 1 5 0).sides ∧
    (((mkPolygon 0 0 1 5 0).vertices.length : ℤ) = (mkPolygon 0 0 1 5 0).sides) ∧
    (∀ i : ℕ, i < (mkPolygon 0 0 1 5 0).vertices.length →
      vget (mkPolygon 0 0 1 5 0).vertices i =
        ((mkPolygon 0 0 1 5 0).cx + (mkPolygon 0 0 1 5 0).radius *
            Real.cos ((mkPolygon 0 0 1 5 0).rotation +
              (i : ℝ) * (2 * Real.pi) / ((mkPolygon 0 0 1 5 0).sides : ℝ)),
         (mkPolygon 0 0 1 5 0).cy + (mkPolygon 0 0 1 5 0).radius *
            Real.sin ((mkPolygon 0 0 1 5 0).rotation +
              (i : ℝ) * (2 * Real.pi) / ((mkPolygon 0 0 1 5 0).sides : ℝ)))) :=
  polygon_representation_invariant 0 0 1 5 0 7 2 1 1 (mkPolygon 0 0 1 5 0)
    (mkPolygon_WF 0 0 1 5 0)

/-- The result object of `Polygon.collideCircle`.  On a miss only `hit` is
set in the source (`{hit:false}`); the remaining fields default to the
values an absent JavaScript property would effectively produce in the
numeric positions (NaN) and are never read on a miss. -/
structure CollideResult where
  hit : Bool
  edgeIndex : ℕ := 0
  pt : JSNum × JSNum := (JSNum.nan, JSNum.nan)
  normal : ℝ × ℝ := (0, 0)
  penetration : JSNum := JSNum.nan

/-- The mutable `best` record of the edge scan in `collideCircle`.  The
source initialises it as `{dist: Infinity}`; the other fields are junk
until the first update and are never read unless an update happened
(the hit guard `best.dist <= r + 1e-4` cannot hold for `Infinity`). -/
structure BestRec where
  dist : JSNum
  i : ℕ
  cp : JSNum × JSNum
  a : ℝ × ℝ
  b : ℝ × ℝ

/-- One iteration of the edge loop in `collideCircle`. -/
def Polygon.collideStep (p : Polygon) (cx cy : ℝ) (best : BestRec) (i : ℕ) : BestRec :=
  let n := p.vertices.length
  let a := vget p.vertices i
  let b := vget p.vertices ((i + 1) % n)
  let cp := Polygon.closestPointOnSegment (fin cx) (fin cy) (fin a.1) (fin a.2) (fin b.1) (fin b.2)
  let dx := fin cx - cp.1
  let dy := fin cy - cp.2
  let dist := sqrtJ (dx * dx + dy * dy)
  if JSNum.ltb dist best.dist then ⟨dist, i, cp, a, b⟩ else best

/-- `Polygon.collideCircle(cx, cy, r)` from polygon.js: scan all edges for
the nearest closest point, declare a hit when the nearest distance is at
most `r + 0.0001`, and in that case build the outward unit normal of the
best edge (perpendicular `(-ey, ex)`, normalised with fallback divisor 1,
flipped if it points towards the polygon centre at the contact point). -/
def Polygon.collideCircle (p : Polygon) (cx cy r : ℝ) : CollideResult :=
  let n := p.vertices.length
  let best := (List.range n).foldl (Polygon.collideStep p cx cy)
    ⟨JSNum.inf true, 0, (JSNum.nan, JSNum.nan), (0, 0), (0, 0)⟩
  if JSNum.leb best.dist (fin r + fin 0.0001) then
    let ex := best.b.1 - best.a.1
    let ey := best.b.2 - best.a.2
    let nl := Real.sqrt (ex * ex + ey * ey)
    let nl1 := if nl = 0 then 1 else nl
    let nx := -ey / nl1
    let ny := ex / nl1
    let dot := (best.cp.1 - fin p.cx) * fin nx + (best.cp.2 - fin p.cy) * fin ny
    let nrm := if JSNum.ltb dot (fin 0) then (-nx, -ny) else (nx, ny)
    { hit := true, edgeIndex := best.i, pt := best.cp, normal := nrm,
      penetration := fin r - best.dist }
  else
    { hit := false }

/-- The state-passing reading of the `collideCircle` method: the method body
only reads `this`, so the polygon handed back to the caller is the receiver
unchanged. -/
def Polygon.collideCircleS (p : Polygon) (cx cy r : ℝ) : CollideResult × Polygon :=
  (p.collideCircle cx cy r, p)

/-- Start vertex of edge `i`. -/
def Polygon.edgeA (p : Polygon) (i : ℕ) : ℝ × ℝ := vget p.vertices i

/-- End vertex of edge `i` (index `(i+1) mod n`). -/
def Polygon.edgeB (p : Polygon) (i : ℕ) : ℝ × ℝ :=
  vget p.vertices ((i + 1) % p.vertices.length)

/-- Real-valued closest point of `(cx,cy)` on edge `i`, following the spec's
closest-point rule (degenerate edge ↦ its start vertex). -/
def Polygon.edgeClosest (p : Polygon) (cx cy : ℝ) (i : ℕ) : ℝ × ℝ :=
  specClosestPointOnSegment cx cy (p.edgeA i).1 (p.edgeA i).2 (p.edgeB i).1 (p.edgeB i).2

/-- Real-valued distance from `(cx,cy)` to (the closest point of) edge `i`. -/
def Polygon.edgeDist (p : Polygon) (cx cy : ℝ) (i : ℕ) : ℝ :=
  Real.sqrt ((cx - (p.edgeClosest cx cy i).1) * (cx - (p.edgeClosest cx cy i).1)
    + (cy - (p.edgeClosest cx cy i).2) * (cy - (p.edgeClosest cx cy i).2))

lemma add_mul_self_nonneg (a b : ℝ) : 0 ≤ a * a + b * b := by
  nlinarith [mul_self_nonneg a, mul_self_nonneg b]

/-- Sum of squares is nonzero for distinct points. -/
lemma sq_sum_ne_zero {a b : ℝ × ℝ} (h : a ≠ b) :
    (b.1 - a.1) * (b.1 - a.1) + (b.2 - a.2) * (b.2 - a.2) ≠ 0 := by
  intro hc
  apply h
  have h1 : b.1 - a.1 = 0 := by nlinarith [sq_nonneg (b.1 - a.1), sq_nonneg (b.2 - a.2)]
  have h2 : b.2 - a.2 = 0 := by nlinarith [sq_nonneg (b.1 - a.1), sq_nonneg (b.2 - a.2)]
  have e1 : a.1 = b.1 := by linarith
  have e2 : a.2 = b.2 := by linarith
  exact Prod.ext e1 e2

/-- The `best` record after the scan has visited (and retained) edge `j`. -/
def Polygon.bestFor (p : Polygon) (cx cy : ℝ) (j : ℕ) : BestRec :=
  ⟨fin (p.edgeDist cx cy j), j,
   (fin (p.edgeClosest cx cy j).1, fin (p.edgeClosest cx cy j).2),
   p.edgeA j, p.edgeB j⟩

lemma collideStep_dist (p : Polygon) (cx cy : ℝ) (i : ℕ) (best : BestRec)
    (hnd : p.edgeA i ≠ p.edgeB i) :
    p.collideStep cx cy best i =
      (if JSNum.ltb (fin (p.edgeDist cx cy i)) best.dist
        then p.bestFor cx cy i else best) := by
  unfold Polygon.collideStep Polygon.bestFor
  dsimp only
  have hcp := closestPointOnSegment_fin cx cy (p.edgeA i).1 (p.edgeA i).2
    (p.edgeB i).1 (p.edgeB i).2 (sq_sum_ne_zero hnd)
  have ha : vget p.vertices i = p.edgeA i := rfl
  have hb : vget p.vertices ((i + 1) % p.vertices.length) = p.edgeB i := rfl
  rw [ha, hb, hcp]
  simp only [fin_sub_fin, fin_mul_fin, fin_add_fin]
  rw [sqrtJ_fin _ (add_mul_self_nonneg _ _)]
  rfl

/-- Index of the minimising edge among `j :: l` (first minimiser wins,
matching the strict `<` update of the source loop). -/
def Polygon.bestIdx (p : Polygon) (cx cy : ℝ) : ℕ → List ℕ → ℕ
  | j, [] => j
  | j, i :: l => Polygon.bestIdx p cx cy (if p.edgeDist cx cy i < p.edgeDist cx cy j then i else j) l

lemma bestIdx_mem (p : Polygon) (cx cy : ℝ) (j : ℕ) (l : List ℕ) :
    p.bestIdx cx cy j l = j ∨ p.bestIdx cx cy j l ∈ l := by
  induction l generalizing j with
  | nil => left; rfl
  | cons i l ih =>
    rcases ih (if p.edgeDist cx cy i < p.edgeDist cx cy j then i else j) with h | h
    · rw [Polygon.bestIdx, h]
      split_ifs with hc
      · right; exact List.mem_cons_self i l
      · left; rfl
    · right
      rw [Polygon.bestIdx]
      exact List.mem_cons_of_mem i h

lemma bestIdx_min (p : Polygon) (cx cy : ℝ) (j : ℕ) (l : List ℕ) :
    p.edgeDist cx cy (p.bestIdx cx cy j l) ≤ p.edgeDist cx cy j ∧
    ∀ k ∈ l, p.edgeDist cx cy (p.bestIdx cx cy j l) ≤ p.edgeDist cx cy k := by
  induction l generalizing j with
  | nil => exact ⟨le_refl _, by simp⟩
  | cons i l ih =>
    obtain ⟨h1, h2⟩ := ih (if p.edgeDist cx cy i < p.edgeDist cx cy j then i else j)
    rw [Polygon.bestIdx]
    constructor
    · refine le_trans h1 ?_
      split_ifs with hc
      · exact le_of_lt hc
      · exact le_refl _
    · intro k hk
      rcases List.mem_cons.mp hk with rfl | hk
      · refine le_trans h1 ?_
        split_ifs with hc
        · exact le_refl _
        · exact not_lt.mp hc
      · exact h2 k hk

lemma foldl_collideStep_from (p : Polygon) (cx cy : ℝ) (j : ℕ) (l : List ℕ)
    (hnd : ∀ i ∈ l, p.edgeA i ≠ p.edgeB i) :
    l.foldl (p.collideStep cx cy) (p.bestFor cx cy j) =
      p.bestFor cx cy (p.bestIdx cx cy j l) := by
  induction l generalizing j with
  | nil => rfl
  | cons i l ih =>
    rw [List.foldl_cons, Polygon.bestIdx,
      collideStep_dist p cx cy i _ (hnd i (List.mem_cons_self i l))]
    have : (if JSNum.ltb (fin (p.edgeDist cx cy i)) (p.bestFor cx cy j).dist
        then p.bestFor cx cy i else p.bestFor cx cy j) =
        p.bestFor cx cy (if p.edgeDist cx cy i < p.edgeDist cx cy j then i else j) := by
      unfold Polygon.bestFor
      simp only [ltb_fin_fin, decide_eq_true_eq]
      split_ifs <;> rfl
    rw [this, ih _ (fun k hk => hnd k (List.mem_cons_of_mem i hk))]

lemma foldl_collideStep (p : Polygon) (cx cy : ℝ) (i : ℕ) (l : List ℕ)
    (hndi : p.edgeA i ≠ p.edgeB i) (hnd : ∀ k ∈ l, p.edgeA k ≠ p.edgeB k) :
    (i :: l).foldl (p.collideStep cx cy)
        ⟨JSNum.inf true, 0, (JSNum.nan, JSNum.nan), (0, 0), (0, 0)⟩ =
      p.bestFor cx cy (p.bestIdx cx cy i l) := by
  rw [List.foldl_cons, collideStep_dist p cx cy i _ hndi]
  rw [if_pos (by rfl)]
  exact foldl_collideStep_from p cx cy i l hnd

/-- The normal `collideCircle` computes for best edge `j`: the edge
perpendicular `(-ey, ex)` normalised (fallback divisor 1 for a zero-length
edge), flipped if it points from the contact point towards the polygon
centre. -/
def Polygon.edgeNormal (p : Polygon) (cx cy : ℝ) (j : ℕ) : ℝ × ℝ :=
  let ex := (p.edgeB j).1 - (p.edgeA j).1
  let ey := (p.edgeB j).2 - (p.edgeA j).2
  let nl := Real.sqrt (ex * ex + ey * ey)
  let nl1 := if nl = 0 then 1 else nl
  let nx := -ey / nl1
  let ny := ex / nl1
  if ((p.edgeClosest cx cy j).1 - p.cx) * nx + ((p.edgeClosest cx cy j).2 - p.cy) * ny < 0
  then (-nx, -ny) else (nx, ny)

/-- Characterisation of `collideCircle` on a polygon whose edges are all
non-degenerate: the scan selects a minimising edge `j`, the hit test compares
its distance with `r + 1e-4`, and the hit result is assembled from edge `j`. -/
lemma collideCircle_char (p : Polygon) (cx cy r : ℝ)
    (h1 : 1 ≤ p.vertices.length)
    (hnd : ∀ i < p.vertices.length, p.edgeA i ≠ p.edgeB i) :
    ∃ j < p.vertices.length,
      (∀ k < p.vertices.length, p.edgeDist cx cy j ≤ p.edgeDist cx cy k) ∧
      p.collideCircle cx cy r =
        if p.edgeDist cx cy j ≤ r + 0.0001 then
          { hit := true, edgeIndex := j,
            pt := (fin (p.edgeClosest cx cy j).1, fin (p.edgeClosest cx cy j).2),
            normal := p.edgeNormal cx cy j,
            penetration := fin (r - p.edgeDist cx cy j) }
        else { hit := false } := by
  obtain ⟨m, hm⟩ : ∃ m, p.vertices.length = m + 1 :=
    ⟨p.vertices.length - 1, (Nat.succ_pred_eq_of_pos h1).symm⟩
  have hrange : List.range p.vertices.length = 0 :: (List.range m).map Nat.succ := by
    rw [hm, List.range_succ_eq_map]
  have hmem : ∀ k ∈ (List.range m).map Nat.succ, k < p.vertices.length := by
    intro k hk
    obtain ⟨k', hk', rfl⟩ := List.mem_map.mp hk
    rw [hm]
    exact Nat.succ_lt_succ (List.mem_range.mp hk')
  refine ⟨p.bestIdx cx cy 0 ((List.range m).map Nat.succ), ?_, ?_, ?_⟩
  · rcases bestIdx_mem p cx cy 0 ((List.range m).map Nat.succ) with h | h
    · rw [h, hm]; exact Nat.succ_pos m
    · exact hmem _ h
  · intro k hk
    obtain ⟨hmin0, hminl⟩ := bestIdx_min p cx cy 0 ((List.range m).map Nat.succ)
    rcases Nat.eq_zero_or_pos k with rfl | hkpos
    · exact hmin0
    · refine hminl k ?_
      refine List.mem_map.mpr ⟨k - 1, List.mem_range.mpr ?_, Nat.succ_pred_eq_of_pos hkpos⟩
      omega
  · unfold Polygon.collideCircle
    dsimp only
    rw [hrange, foldl_collideStep p cx cy 0 _ (hnd 0 (by omega)) (fun k hk => hnd k (hmem k hk))]
    set j := p.bestIdx cx cy 0 ((List.range m).map Nat.succ) with hj
    unfold Polygon.bestFor
    dsimp only
    simp only [fin_add_fin, leb_fin_fin, fin_sub_fin, fin_mul_fin, ltb_fin_fin,
      decide_eq_true_eq]
    refine if_congr Iff.rfl ?_ rfl
    unfold Polygon.edgeNormal
    dsimp only

/-- The divisor used to normalise the edge perpendicular: the edge length
with `|| 1` fallback. -/
def Polygon.edgeLen1 (p : Polygon) (j : ℕ) : ℝ :=
  let ex := (p.edgeB j).1 - (p.edgeA j).1
  let ey := (p.edgeB j).2 - (p.edgeA j).2
  let nl := Real.sqrt (ex * ex + ey * ey)
  if nl = 0 then 1 else nl

lemma flip_sq (tx ty nx ny : ℝ) :
    (if tx * nx + ty * ny < 0 then (-nx, -ny) else (nx, ny)).1 ^ 2 +
      (if tx * nx + ty * ny < 0 then (-nx, -ny) else (nx, ny)).2 ^ 2 = nx ^ 2 + ny ^ 2 := by
  split_ifs <;> dsimp only <;> ring

lemma flip_outward (tx ty nx ny : ℝ) :
    0 ≤ tx * (if tx * nx + ty * ny < 0 then (-nx, -ny) else (nx, ny)).1 +
        ty * (if tx * nx + ty * ny < 0 then (-nx, -ny) else (nx, ny)).2 := by
  split_ifs with h
  · dsimp only
    nlinarith [h]
  · dsimp only
    linarith [not_lt.mp h]

lemma flip_pm (nx ny c : ℝ) :
    ∃ e : ℝ, (e = 1 ∨ e = -1) ∧
      (if c < 0 then (-nx, -ny) else (nx, ny)) = (e * nx, e * ny) := by
  split_ifs
  · exact ⟨-1, Or.inr rfl, by refine Prod.ext ?_ ?_ <;> dsimp only <;> ring⟩
  · exact ⟨1, Or.inl rfl, by refine Prod.ext ?_ ?_ <;> dsimp only <;> ring⟩

lemma edgeNormal_unit (p : Polygon) (cx cy : ℝ) (j : ℕ) (hnd : p.edgeA j ≠ p.edgeB j) :
    (p.edgeNormal cx cy j).1 ^ 2 + (p.edgeNormal cx cy j).2 ^ 2 = 1 := by
  unfold Polygon.edgeNormal
  dsimp only
  rw [flip_sq]
  set ex := (p.edgeB j).1 - (p.edgeA j).1 with hex
  set ey := (p.edgeB j).2 - (p.edgeA j).2 with hey
  have hpos : 0 < ex * ex + ey * ey :=
    lt_of_le_of_ne (add_mul_self_nonneg _ _) (Ne.symm (sq_sum_ne_zero hnd))
  have hnl : Real.sqrt (ex * ex + ey * ey) ≠ 0 :=
    ne_of_gt (Real.sqrt_pos.mpr hpos)
  rw [if_neg hnl]
  have hsq : Real.sqrt (ex * ex + ey * ey) * Real.sqrt (ex * ex + ey * ey)
      = ex * ex + ey * ey := Real.mul_self_sqrt hpos.le
  field_simp
  nlinarith [hsq]

lemma edgeNormal_outward (p : Polygon) (cx cy : ℝ) (j : ℕ) :
    0 ≤ ((p.edgeClosest cx cy j).1 - p.cx) * (p.edgeNormal cx cy j).1 +
        ((p.edgeClosest cx cy j).2 - p.cy) * (p.edgeNormal cx cy j).2 := by
  unfold Polygon.edgeNormal
  dsimp only
  exact flip_outward _ _ _ _

lemma edgeNormal_perp (p : Polygon) (cx cy : ℝ) (j : ℕ) :
    ∃ e : ℝ, (e = 1 ∨ e = -1) ∧
      p.edgeNormal cx cy j =
        (e * (-((p.edgeB j).2 - (p.edgeA j).2) / p.edgeLen1 j),
         e * (((p.edgeB j).1 - (p.edgeA j).1) / p.edgeLen1 j)) := by
  unfold Polygon.edgeNormal Polygon.edgeLen1
  dsimp only
  exact flip_pm _ _ _

/-- C2 (amended with the non-degeneracy of all edges, which the radius-0
polygon violates — see the counterexample): for a polygon with at least 3
vertices all of whose edges have distinct endpoints, `collideCircle` takes
the minimum over all edges of the distance from the circle centre to the
edge's closest point, declares a hit exactly when that minimum is at most
`r + 1e-4`, and on a hit returns `penetration = r - d`, a minimising edge
index, the contact point, and a unit normal that is the edge perpendicular
`(-ey, ex)` normalised (fallback divisor 1), flipped so that
`(contact - centre) · normal ≥ 0`; otherwise it returns the no-hit result. -/
theorem collideCircle_functional (p : Polygon) (cx cy r : ℝ)
    (h3 : 3 ≤ p.vertices.length)
    (hnd : ∀ i < p.vertices.length, p.edgeA i ≠ p.edgeB i) :
    ((p.collideCircle cx cy r).hit = true ↔
      ∃ i < p.vertices.length, p.edgeDist cx cy i ≤ r + 0.0001) ∧
    ((p.collideCircle cx cy r).hit = false → p.collideCircle cx cy r = { hit := false }) ∧
    ((p.collideCircle cx cy r).hit = true →
      ∃ j < p.vertices.length,
        (∀ k < p.vertices.length, p.edgeDist cx cy j ≤ p.edgeDist cx cy k) ∧
        (p.collideCircle cx cy r).edgeIndex = j ∧
        (p.collideCircle cx cy r).penetration = fin (r - p.edgeDist cx cy j) ∧
        (p.collideCircle cx cy r).pt =
          (fin (p.edgeClosest cx cy j).1, fin (p.edgeClosest cx cy j).2) ∧
        (∃ e : ℝ, (e = 1 ∨ e = -1) ∧
          (p.collideCircle cx cy r).normal =
            (e * (-((p.edgeB j).2 - (p.edgeA j).2) / p.edgeLen1 j),
             e * (((p.edgeB j).1 - (p.edgeA j).1) / p.edgeLen1 j))) ∧
        (p.collideCircle cx cy r).normal.1 ^ 2 + (p.collideCircle cx cy r).normal.2 ^ 2 = 1 ∧
        0 ≤ ((p.edgeClosest cx cy j).1 - p.cx) * (p.collideCircle cx cy r).normal.1 +
            ((p.edgeClosest cx cy j).2 - p.cy) * (p.collideCircle cx cy r).normal.2) := by
  obtain ⟨j, hjn, hjmin, heq⟩ :=
    collideCircle_char p cx cy r (le_trans (by norm_num) h3) hnd
  by_cases hd : p.edgeDist cx cy j ≤ r + 0.0001
  · rw [heq, if_pos hd]
    refine ⟨⟨fun _ => ⟨j, hjn, hd⟩, fun _ => rfl⟩, by simp, fun _ => ⟨j, hjn, hjmin, rfl, rfl, rfl,
      ?_, edgeNormal_unit p cx cy j (hnd j hjn), edgeNormal_outward p cx cy j⟩⟩
    exact edgeNormal_perp p cx cy j
  · rw [heq, if_neg hd]
    refine ⟨⟨by simp, ?_⟩, fun _ => rfl, by simp⟩
    rintro ⟨i, hin, hi⟩
    exact absurd (le_trans (hjmin i hin) hi) hd

lemma degenerate_polygon_vertices :
    (mkPolygon 0 0 0 3 0).vertices = [(0, 0), (0, 0), (0, 0)] := by
  show Polygon.computeVertices 0 0 0 (max 3 ⌊(3:ℝ)⌋) 0 = _
  have h3 : (⌊(3:ℝ)⌋ : ℤ) = 3 := by norm_num
  rw [h3]
  unfold Polygon.computeVertices
  norm_num [List.range_succ]
  rfl

/-- A step of the scan leaves `best` unchanged on a degenerate edge: the
closest point is `(NaN, NaN)`, the distance is NaN, and `NaN < best.dist`
is false. -/
lemma collideStep_degenerate (p : Polygon) (cx cy : ℝ) (best : BestRec) (i : ℕ)
    (hab : vget p.vertices i = vget p.vertices ((i + 1) % p.vertices.length)) :
    p.collideStep cx cy best i = best := by
  unfold Polygon.collideStep
  dsimp only
  rw [← hab, closestPointOnSegment_degenerate]
  simp

/-- C2 counterexample: the radius-0 polygon `mkPolygon 0 0 0 3 0` has 3
vertices (all `(0,0)`), the circle of radius 1 at the origin is within
`r + 1e-4` of every edge's closest point (distance 0), yet `collideCircle`
reports no hit: every edge is degenerate, its computed distance is NaN, the
NaN comparison keeps `best.dist = Infinity`, and `Infinity ≤ r + 1e-4` is
false. -/
theorem collideCircle_cex :
    3 ≤ (mkPolygon 0 0 0 3 0).vertices.length ∧ (0 : ℝ) < 1 ∧
    (∃ i < (mkPolygon 0 0 0 3 0).vertices.length,
      (mkPolygon 0 0 0 3 0).edgeDist 0 0 i ≤ 1 + 0.0001) ∧
    ((mkPolygon 0 0 0 3 0).collideCircle 0 0 1).hit = false := by
  have hv := degenerate_polygon_vertices
  have hlen : (mkPolygon 0 0 0 3 0).vertices.length = 3 := by rw [hv]; rfl
  refine ⟨by rw [hlen], by norm_num, ⟨0, by rw [hlen]; norm_num, ?_⟩, ?_⟩
  · unfold Polygon.edgeDist Polygon.edgeClosest Polygon.edgeA Polygon.edgeB
    rw [hv]
    show Real.sqrt ((0 - (specClosestPointOnSegment 0 0 0 0 0 0).1) *
      (0 - (specClosestPointOnSegment 0 0 0 0 0 0).1) +
      (0 - (specClosestPointOnSegment 0 0 0 0 0 0).2) *
      (0 - (specClosestPointOnSegment 0 0 0 0 0 0).2)) ≤ 1 + 0.0001
    norm_num [specClosestPointOnSegment]
  · unfold Polygon.collideCircle
    dsimp only
    rw [hlen]
    have hstep : ∀ (best : BestRec) (i : ℕ), i < 3 →
        (mkPolygon 0 0 0 3 0).collideStep 0 0 best i = best := by
      intro best i hi
      refine collideStep_degenerate _ _ _ best i ?_
      rw [hv]
      interval_cases i <;> rfl
    rw [show List.range 3 = [0, 1, 2] by rfl]
    rw [List.foldl_cons, hstep _ 0 (by norm_num), List.foldl_cons, hstep _ 1 (by norm_num),
      List.foldl_cons, hstep _ 2 (by norm_num), List.foldl_nil]
    simp

/-- The concrete square `mkPolygon 0 0 √2 4 (π/4)`: an axis-aligned square
with vertices `(±1, ±1)`. -/
lemma square_vertices :
    (mkPolygon 0 0 (Real.sqrt 2) 4 (Real.pi / 4)).vertices =
      [(1, 1), (-1, 1), (-1, -1), (1, -1)] := by
  show Polygon.computeVertices 0 0 (Real.sqrt 2) (max 3 ⌊(4:ℝ)⌋) (Real.pi / 4) = _
  have h4 : (⌊(4:ℝ)⌋ : ℤ) = 4 := by norm_num
  have hmax : (max 3 (4:ℤ)) = 4 := by decide
  rw [h4, hmax]
  unfold Polygon.computeVertices
  have hs2 : Real.sqrt 2 * (Real.sqrt 2 / 2) = 1 := by
    rw [mul_div_assoc']
    rw [Real.mul_self_sqrt (by norm_num)]
    norm_num
  have e0 : Real.pi / 4 + ((0 : ℕ) : ℝ) / ((4 : ℤ) : ℝ) * (2 * Real.pi) = Real.pi / 4 := by
    push_cast; ring
  have e1 : Real.pi / 4 + ((1 : ℕ) : ℝ) / ((4 : ℤ) : ℝ) * (2 * Real.pi)
      = Real.pi / 4 + Real.pi / 2 := by push_cast; ring
  have e2 : Real.pi / 4 + ((2 : ℕ) : ℝ) / ((4 : ℤ) : ℝ) * (2 * Real.pi)
      = Real.pi / 4 + Real.pi := by push_cast; ring
  have e3 : Real.pi / 4 + ((3 : ℕ) : ℝ) / ((4 : ℤ) : ℝ) * (2 * Real.pi)
      = (Real.pi / 4 + Real.pi) + Real.pi / 2 := by push_cast; ring
  rw [show (Int.toNat 4) = 4 from rfl]
  rw [show List.range 4 = [0, 1, 2, 3] from rfl]
  simp only [List.map_cons, List.map_nil]
  rw [e0, e1, e2, e3]
  rw [Real.cos_add_pi_div_two, Real.sin_add_pi_div_two, Real.cos_add_pi, Real.sin_add_pi,
    Real.cos_add_pi_div_two, Real.sin_add_pi_div_two, Real.cos_add_pi, Real.sin_add_pi,
    Real.cos_pi_div_four, Real.sin_pi_div_four]
  have hs2' : Real.sqrt 2 / 2 * Real.sqrt 2 = 1 := by
    rw [div_mul_eq_mul_div, Real.mul_self_sqrt (by norm_num)]
    norm_num
  norm_num [hs2, hs2']

lemma square_len :
    (mkPolygon 0 0 (Real.sqrt 2) 4 (Real.pi / 4)).vertices.length = 4 := by
  rw [square_vertices]
  rfl

lemma square_edgeA (i : ℕ) (hi : i < 4) :
    (mkPolygon 0 0 (Real.sqrt 2) 4 (Real.pi / 4)).edgeA i =
      vget [(1, 1), (-1, 1), (-1, -1), (1, -1)] i := by
  unfold Polygon.edgeA
  rw [square_vertices]

lemma square_edgeB (i : ℕ) (hi : i < 4) :
    (mkPolygon 0 0 (Real.sqrt 2) 4 (Real.pi / 4)).edgeB i =
      vget [(1, 1), (-1, 1), (-1, -1), (1, -1)] ((i + 1) % 4) := by
  unfold Polygon.edgeB
  rw [square_vertices]
  rfl

lemma square_nondeg :
    ∀ i < (mkPolygon 0 0 (Real.sqrt 2) 4 (Real.pi / 4)).vertices.length,
      (mkPolygon 0 0 (Real.sqrt 2) 4 (Real.pi / 4)).edgeA i ≠
      (mkPolygon 0 0 (Real.sqrt 2) 4 (Real.pi / 4)).edgeB i := by
  rw [square_len]
  intro i hi
  rw [square_edgeA i hi, square_edgeB i hi]
  interval_cases i <;> · intro h; rw [Prod.ext_iff] at h; norm_num [vget] at h

lemma square_closest0 :
    (mkPolygon 0 0 (Real.sqrt 2) 4 (Real.pi / 4)).edgeClosest 0.9 0 0 = (0.9, 1) := by
  unfold Polygon.edgeClosest
  rw [square_edgeA 0 (by norm_num), square_edgeB 0 (by norm_num)]
  show specClosestPointOnSegment 0.9 0 1 1 (-1) 1 = (0.9, 1)
  unfold specClosestPointOnSegment
  norm_num

lemma square_closest1 :
    (mkPolygon 0 0 (Real.sqrt 2) 4 (Real.pi / 4)).edgeClosest 0.9 0 1 = (-1, 0) := by
  unfold Polygon.edgeClosest
  rw [square_edgeA 1 (by norm_num), square_edgeB 1 (by norm_num)]
  show specClosestPointOnSegment 0.9 0 (-1) 1 (-1) (-1) = (-1, 0)
  unfold specClosestPointOnSegment
  norm_num

lemma square_closest2 :
    (mkPolygon 0 0 (Real.sqrt 2) 4 (Real.pi / 4)).edgeClosest 0.9 0 2 = (0.9, -1) := by
  unfold Polygon.edgeClosest
  rw [square_edgeA 2 (by norm_num), square_edgeB 2 (by norm_num)]
  show specClosestPointOnSegment 0.9 0 (-1) (-1) 1 (-1) = (0.9, -1)
  unfold specClosestPointOnSegment
  norm_num

lemma square_closest3 :
    (mkPolygon 0 0 (Real.sqrt 2) 4 (Real.pi / 4)).edgeClosest 0.9 0 3 = (1, 0) := by
  unfold Polygon.edgeClosest
  rw [square_edgeA 3 (by norm_num), square_edgeB 3 (by norm_num)]
  show specClosestPointOnSegment 0.9 0 1 (-1) 1 1 = (1, 0)
  unfold specClosestPointOnSegment
  norm_num

lemma square_dist0 :
    (mkPolygon 0 0 (Real.sqrt 2) 4 (Real.pi / 4)).edgeDist 0.9 0 0 = 1 := by
  unfold Polygon.edgeDist
  rw [square_closest0]
  norm_num

lemma square_dist1 :
    (mkPolygon 0 0 (Real.sqrt 2) 4 (Real.pi / 4)).edgeDist 0.9 0 1 = 1.9 := by
  unfold Polygon.edgeDist
  rw [square_closest1]
  rw [show (0.9 - (-1 : ℝ) ) * (0.9 - (-1 : ℝ)) + (0 - (0:ℝ)) * (0 - (0:ℝ)) = 1.9 ^ 2 by norm_num]
  exact Real.sqrt_sq (by norm_num)

lemma square_dist2 :
    (mkPolygon 0 0 (Real.sqrt 2) 4 (Real.pi / 4)).edgeDist 0.9 0 2 = 1 := by
  unfold Polygon.edgeDist
  rw [square_closest2]
  norm_num

lemma square_dist3 :
    (mkPolygon 0 0 (Real.sqrt 2) 4 (Real.pi / 4)).edgeDist 0.9 0 3 = 0.1 := by
  unfold Polygon.edgeDist
  rw [square_closest3]
  rw [show (0.9 - (1 : ℝ)) * (0.9 - (1 : ℝ)) + (0 - (0:ℝ)) * (0 - (0:ℝ)) = 0.1 ^ 2 by norm_num]
  exact Real.sqrt_sq (by norm_num)

/-- Concrete evaluation: the circle at `(0.9, 0)` with radius `0.5` hits the
square's right edge (index 3) at `(1, 0)` with outward normal `(1, 0)` and
penetration `0.5 - 0.1 = 0.4`. -/
lemma square_collide :
    (mkPolygon 0 0 (Real.sqrt 2) 4 (Real.pi / 4)).collideCircle 0.9 0 0.5 =
      { hit := true, edgeIndex := 3, pt := (fin 1, fin 0), normal := (1, 0),
        penetration := fin (0.4 : ℝ) } := by
  set P := mkPolygon 0 0 (Real.sqrt 2) 4 (Real.pi / 4) with hP
  unfold Polygon.collideCircle
  dsimp only
  rw [square_len]
  rw [show List.range 4 = 0 :: [1, 2, 3] from rfl]
  rw [foldl_collideStep P 0.9 0 0 [1, 2, 3]
    (square_nondeg 0 (by rw [square_len]; norm_num))
    (fun k hk => square_nondeg k (by rw [square_len]; fin_cases hk <;> norm_num))]
  have hb : P.bestIdx 0.9 0 0 [1, 2, 3] = 3 := by
    rw [Polygon.bestIdx, if_neg (by rw [square_dist1, square_dist0]; norm_num)]
    rw [Polygon.bestIdx, if_neg (by rw [square_dist2, square_dist0]; norm_num)]
    rw [Polygon.bestIdx, if_pos (by rw [square_dist3, square_dist0]; norm_num)]
    rfl
  rw [hb]
  unfold Polygon.bestFor
  rw [square_dist3, square_closest3, square_edgeA 3 (by norm_num), square_edgeB 3 (by norm_num)]
  dsimp only
  rw [show vget [((1:ℝ), (1:ℝ)), (-1, 1), (-1, -1), (1, -1)] 3 = (1, -1) from rfl]
  rw [show vget [((1:ℝ), (1:ℝ)), (-1, 1), (-1, -1), (1, -1)] ((3 + 1) % 4) = (1, 1) from rfl]
  simp only [fin_add_fin, leb_fin_fin, fin_sub_fin, fin_mul_fin, ltb_fin_fin]
  rw [if_pos (by norm_num)]
  have hcx : P.cx = 0 := rfl
  have hcy : P.cy = 0 := rfl
  rw [hcx, hcy]
  have hnl : Real.sqrt ((1 - 1) * (1 - 1) + (1 - -1) * (1 - -1)) = 2 := by
    rw [show ((1:ℝ) - 1) * (1 - 1) + (1 - -1) * (1 - -1) = 2 ^ 2 by norm_num]
    exact Real.sqrt_sq (by norm_num)
  rw [hnl]
  norm_num [CollideResult.mk.injEq, Prod.ext_iff]

/-- C2 witness: the functional characterisation instantiated at the concrete
square and the circle at `(0.9, 0)` with radius `0.5`. -/
theorem collideCircle_functional_witness :
    (((mkPolygon 0 0 (Real.sqrt 2) 4 (Real.pi / 4)).collideCircle 0.9 0 0.5).hit = true ↔
      ∃ i < (mkPolygon 0 0 (Real.sqrt 2) 4 (Real.pi / 4)).vertices.length,
        (mkPolygon 0 0 (Real.sqrt 2) 4 (Real.pi / 4)).edgeDist 0.9 0 i ≤ 0.5 + 0.0001) ∧
    (((mkPolygon 0 0 (Real.sqrt 2) 4 (Real.pi / 4)).collideCircle 0.9 0 0.5).hit = false →
      (mkPolygon 0 0 (Real.sqrt 2) 4 (Real.pi / 4)).collideCircle 0.9 0 0.5 = { hit := false }) ∧
    (((mkPolygon 0 0 (Real.sqrt 2) 4 (Real.pi / 4)).collideCircle 0.9 0 0.5).hit = true →
      ∃ j < (mkPolygon 0 0 (Real.sqrt 2) 4 (Real.pi / 4)).vertices.length,
        (∀ k < (mkPolygon 0 0 (Real.sqrt 2) 4 (Real.pi / 4)).vertices.length,
          (mkPolygon 0 0 (Real.sqrt 2) 4 (Real.pi / 4)).edgeDist 0.9 0 j ≤
            (mkPolygon 0 0 (Real.sqrt 2) 4 (Real.pi / 4)).edgeDist 0.9 0 k) ∧
        ((mkPolygon 0 0 (Real.sqrt 2) 4 (Real.pi / 4)).collideCircle 0.9 0 0.5).edgeIndex = j ∧
        ((mkPolygon 0 0 (Real.sqrt 2) 4 (Real.pi / 4)).collideCircle 0.9 0 0.5).penetration =
          fin (0.5 - (mkPolygon 0 0 (Real.sqrt 2) 4 (Real.pi / 4)).edgeDist 0.9 0 j) ∧
        ((mkPolygon 0 0 (Real.sqrt 2) 4 (Real.pi / 4)).collideCircle 0.9 0 0.5).pt =
          (fin ((mkPolygon 0 0 (Real.sqrt 2) 4 (Real.pi / 4)).edgeClosest 0.9 0 j).1,
           fin ((mkPolygon 0 0 (Real.sqrt 2) 4 (Real.pi / 4)).edgeClosest 0.9 0 j).2) ∧
        (∃ e : ℝ, (e = 1 ∨ e = -1) ∧
          ((mkPolygon 0 0 (Real.sqrt 2) 4 (Real.pi / 4)).collideCircle 0.9 0 0.5).normal =
            (e * (-(((mkPolygon 0 0 (Real.sqrt 2) 4 (Real.pi / 4)).edgeB j).2 -
                ((mkPolygon 0 0 (Real.sqrt 2) 4 (Real.pi / 4)).edgeA j).2) /
                (mkPolygon 0 0 (Real.sqrt 2) 4 (Real.pi / 4)).edgeLen1 j),
             e * ((((mkPolygon 0 0 (Real.sqrt 2) 4 (Real.pi / 4)).edgeB j).1 -
                ((mkPolygon 0 0 (Real.sqrt 2) 4 (Real.pi / 4)).edgeA j).1) /
                (mkPolygon 0 0 (Real.sqrt 2) 4 (Real.pi / 4)).edgeLen1 j))) ∧
        ((mkPolygon 0 0 (Real.sqrt 2) 4 (Real.pi / 4)).collideCircle 0.9 0 0.5).normal.1 ^ 2 +
          ((mkPolygon 0 0 (Real.sqrt 2) 4 (Real.pi / 4)).collideCircle 0.9 0 0.5).normal.2 ^ 2 = 1 ∧
        0 ≤ (((mkPolygon 0 0 (Real.sqrt 2) 4 (Real.pi / 4)).edgeClosest 0.9 0 j).1 -
              (mkPolygon 0 0 (Real.sqrt 2) 4 (Real.pi / 4)).cx) *
            ((mkPolygon 0 0 (Real.sqrt 2) 4 (Real.pi / 4)).collideCircle 0.9 0 0.5).normal.1 +
            (((mkPolygon 0 0 (Real.sqrt 2) 4 (Real.pi / 4)).edgeClosest 0.9 0 j).2 -
              (mkPolygon 0 0 (Real.sqrt 2) 4 (Real.pi / 4)).cy) *
            ((mkPolygon 0 0 (Real.sqrt 2) 4 (Real.pi / 4)).collideCircle 0.9 0 0.5).normal.2) :=
  collideCircle_functional (mkPolygon 0 0 (Real.sqrt 2) 4 (Real.pi / 4)) 0.9 0 0.5
    (by rw [square_len]; norm_num) square_nondeg

/-- C10: the collision query is pure with respect to the polygon — the
state-passing reading of the method returns the receiver unchanged: centre,
radius, side count, rotation and the entire vertex list are those of the
input polygon. -/
theorem collideCircle_pure (p : Polygon) (cx cy r : ℝ) :
    (p.collideCircleS cx cy r).2.cx = p.cx ∧
    (p.collideCircleS cx cy r).2.cy = p.cy ∧
    (p.collideCircleS cx cy r).2.radius = p.radius ∧
    (p.collideCircleS cx cy r).2.sides = p.sides ∧
    (p.collideCircleS cx cy r).2.rotation = p.rotation ∧
    (p.collideCircleS cx cy r).2.vertices = p.vertices ∧
    (p.collideCircleS cx cy r).2 = p :=
  ⟨rfl, rfl, rfl, rfl, rfl, rfl, rfl⟩

/-- Apothem of a regular polygon with the model's parameters:
`radius · cos(π / sides)` (the distance from the centre to an edge
midpoint). -/
def Polygon.apothem (p : Polygon) : ℝ :=
  p.radius * Real.cos (Real.pi / (p.sides : ℝ))

/-- C9 counterexample: on the square `mkPolygon 0 0 √2 4 (π/4)` the circle
centred at `(0.9, 0)` — a point inside the polygon (in the convex hull of its
vertices) — with radius `0.5 < apothem = 1` is nevertheless reported as a
hit, because the centre is within `0.5 + 1e-4` of the right edge. -/
theorem collideCircle_inside_cex :
    ((0.9, 0) : ℝ × ℝ) ∈
        convexHull ℝ {v : ℝ × ℝ | v ∈ (mkPolygon 0 0 (Real.sqrt 2) 4 (Real.pi / 4)).vertices} ∧
    (0.5 : ℝ) < (mkPolygon 0 0 (Real.sqrt 2) 4 (Real.pi / 4)).apothem ∧
    ((mkPolygon 0 0 (Real.sqrt 2) 4 (Real.pi / 4)).collideCircle 0.9 0 0.5).hit = true := by
  refine ⟨?_, ?_, by rw [square_collide]⟩
  · set S : Set (ℝ × ℝ) :=
      {v : ℝ × ℝ | v ∈ (mkPolygon 0 0 (Real.sqrt 2) 4 (Real.pi / 4)).vertices} with hS
    have hmem : ∀ v : ℝ × ℝ, v ∈ [((1:ℝ), (1:ℝ)), (-1, 1), (-1, -1), (1, -1)] → v ∈ S := by
      intro v hv
      rw [hS]
      show v ∈ (mkPolygon 0 0 (Real.sqrt 2) 4 (Real.pi / 4)).vertices
      rw [square_vertices]
      exact hv
    have h11 : ((1:ℝ), (1:ℝ)) ∈ convexHull ℝ S :=
      subset_convexHull ℝ S (hmem _ (by norm_num))
    have h1m : ((1:ℝ), (-1:ℝ)) ∈ convexHull ℝ S :=
      subset_convexHull ℝ S (hmem _ (by norm_num))
    have hm1 : ((-1:ℝ), (1:ℝ)) ∈ convexHull ℝ S :=
      subset_convexHull ℝ S (hmem _ (by norm_num))
    have hmm : ((-1:ℝ), (-1:ℝ)) ∈ convexHull ℝ S :=
      subset_convexHull ℝ S (hmem _ (by norm_num))
    have hright : ((1:ℝ), (0:ℝ)) ∈ convexHull ℝ S := by
      refine (convex_convexHull ℝ S).segment_subset h11 h1m ⟨0.5, 0.5, by norm_num, by norm_num,
        by norm_num, ?_⟩
      show (0.5 • ((1:ℝ), (1:ℝ)) + 0.5 • ((1:ℝ), (-1:ℝ))) = ((1:ℝ), (0:ℝ))
      rw [Prod.smul_mk, Prod.smul_mk, Prod.mk_add_mk]
      norm_num
    have hleft : ((-1:ℝ), (0:ℝ)) ∈ convexHull ℝ S := by
      refine (convex_convexHull ℝ S).segment_subset hm1 hmm ⟨0.5, 0.5, by norm_num, by norm_num,
        by norm_num, ?_⟩
      show (0.5 • ((-1:ℝ), (1:ℝ)) + 0.5 • ((-1:ℝ), (-1:ℝ))) = ((-1:ℝ), (0:ℝ))
      rw [Prod.smul_mk, Prod.smul_mk, Prod.mk_add_mk]
      norm_num
    refine (convex_convexHull ℝ S).segment_subset hright hleft ⟨0.95, 0.05, by norm_num,
      by norm_num, by norm_num, ?_⟩
    show (0.95 • ((1:ℝ), (0:ℝ)) + 0.05 • ((-1:ℝ), (0:ℝ))) = ((0.9:ℝ), (0:ℝ))
    rw [Prod.smul_mk, Prod.smul_mk, Prod.mk_add_mk]
    norm_num
  · unfold Polygon.apothem
    have hsides : (mkPolygon 0 0 (Real.sqrt 2) 4 (Real.pi / 4)).sides = 4 := by
      show max 3 ⌊(4:ℝ)⌋ = 4
      norm_num
    have hrad : (mkPolygon 0 0 (Real.sqrt 2) 4 (Real.pi / 4)).radius = Real.sqrt 2 := rfl
    rw [hsides, hrad]
    rw [show (((4:ℤ)):ℝ) = 4 by norm_num, Real.cos_pi_div_four]
    rw [mul_div_assoc', Real.mul_self_sqrt (by norm_num)]
    norm_num

/-- The spec closest point lies on the segment: it is `a + t·(b-a)` for some
clamped `t ∈ [0,1]`. -/
lemma specClosest_param (px py ax ay bx b_y : ℝ) :
    ∃ t, 0 ≤ t ∧ t ≤ 1 ∧
      specClosestPointOnSegment px py ax ay bx b_y =
        (ax + (bx - ax) * t, ay + (b_y - ay) * t) := by
  unfold specClosestPointOnSegment
  dsimp only
  split_ifs with h0 h1 h2 h3 h4 h5
  all_goals first
    | exact ⟨0, le_refl 0, by norm_num, rfl⟩
    | exact ⟨1, by norm_num, le_refl 1, rfl⟩
    | (refine ⟨_, ?_, ?_, rfl⟩ <;> first | linarith | norm_num)

/-- Any point of the chord between two points on the circle of radius `R`
(polar angles `α` and `α + 2δ`) is at distance at least `R·cos δ` from the
centre, provided `cos δ ≥ 0`. -/
lemma dist_point_on_chord (R α δ u v t : ℝ) (hR : 0 ≤ R) (hcos : 0 ≤ Real.cos δ)
    (ht0 : 0 ≤ t) (ht1 : t ≤ 1)
    (hu : u = R * Real.cos α + t * (R * Real.cos (α + 2 * δ) - R * Real.cos α))
    (hv : v = R * Real.sin α + t * (R * Real.sin (α + 2 * δ) - R * Real.sin α)) :
    R * Real.cos δ ≤ Real.sqrt (u * u + v * v) := by
  have c1 := Real.cos_sub (α + δ) α
  rw [show α + δ - α = δ by ring] at c1
  have c2 := Real.cos_sub (α + 2 * δ) (α + δ)
  rw [show α + 2 * δ - (α + δ) = δ by ring] at c2
  have key : u * Real.cos (α + δ) + v * Real.sin (α + δ) = R * Real.cos δ := by
    rw [hu, hv]
    linear_combination R * (1 - t) * c1.symm + R * t * c2.symm
  have hunit : Real.sin (α + δ) ^ 2 + Real.cos (α + δ) ^ 2 = 1 :=
    Real.sin_sq_add_cos_sq (α + δ)
  have hid : u * u + v * v =
      (u * Real.cos (α + δ) + v * Real.sin (α + δ)) ^ 2 +
      (u * Real.sin (α + δ) - v * Real.cos (α + δ)) ^ 2 +
      (u * u + v * v) * (1 - (Real.sin (α + δ) ^ 2 + Real.cos (α + δ) ^ 2)) := by ring
  rw [hunit] at hid
  norm_num at hid
  rw [key] at hid
  have h2 : (R * Real.cos δ) ^ 2 ≤ u * u + v * v := by
    rw [hid]
    linarith [sq_nonneg (u * Real.sin (α + δ) - v * Real.cos (α + δ))]
  have h3 : 0 ≤ R * Real.cos δ := mul_nonneg hR hcos
  calc R * Real.cos δ = Real.sqrt ((R * Real.cos δ) ^ 2) := (Real.sqrt_sq h3).symm
    _ ≤ Real.sqrt (u * u + v * v) := Real.sqrt_le_sqrt h2

lemma computeVertices_vget (cx cy R : ℝ) (s : ℤ) (rot : ℝ) (i : ℕ) (hi : i < s.toNat) :
    vget (Polygon.computeVertices cx cy R s rot) i =
      (cx + Real.cos (rot + ((i : ℝ) / (s : ℝ)) * (2 * Real.pi)) * R,
       cy + Real.sin (rot + ((i : ℝ) / (s : ℝ)) * (2 * Real.pi)) * R) := by
  unfold vget
  have hlen : i < (Polygon.computeVertices cx cy R s rot).length := by
    rwa [computeVertices_length]
  rw [List.getD_eq_getElem _ _ hlen]
  unfold Polygon.computeVertices
  simp only [List.getElem_map, List.getElem_range]

lemma mkPolygon_sides_pos (cx cy R n rot : ℝ) :
    (0 : ℝ) < ((mkPolygon cx cy R n rot).sides : ℝ) := by
  have h3 : 3 ≤ (mkPolygon cx cy R n rot).sides := le_max_left _ _
  have : (3 : ℝ) ≤ ((mkPolygon cx cy R n rot).sides : ℝ) := by exact_mod_cast h3
  linarith

lemma mkPolygon_len (cx cy R n rot : ℝ) :
    (mkPolygon cx cy R n rot).vertices.length = (mkPolygon cx cy R n rot).sides.toNat :=
  computeVertices_length _ _ _ _ _

lemma mkPolygon_edgeA_angle (cx cy R n rot : ℝ) (i : ℕ)
    (hi : i < (mkPolygon cx cy R n rot).sides.toNat) :
    (mkPolygon cx cy R n rot).edgeA i =
      (cx + Real.cos (rot + ((i : ℝ) / ((mkPolygon cx cy R n rot).sides : ℝ)) * (2 * Real.pi)) * R,
       cy + Real.sin (rot + ((i : ℝ) / ((mkPolygon cx cy R n rot).sides : ℝ)) * (2 * Real.pi)) * R) :=
  computeVertices_vget cx cy R _ rot i hi

lemma mkPolygon_edgeB_angle (cx cy R n rot : ℝ) (i : ℕ)
    (hi : i < (mkPolygon cx cy R n rot).sides.toNat) :
    (mkPolygon cx cy R n rot).edgeB i =
      (cx + Real.cos ((rot + ((i : ℝ) / ((mkPolygon cx cy R n rot).sides : ℝ)) * (2 * Real.pi))
          + 2 * (Real.pi / ((mkPolygon cx cy R n rot).sides : ℝ))) * R,
       cy + Real.sin ((rot + ((i : ℝ) / ((mkPolygon cx cy R n rot).sides : ℝ)) * (2 * Real.pi))
          + 2 * (Real.pi / ((mkPolygon cx cy R n rot).sides : ℝ))) * R) := by
  set s : ℤ := (mkPolygon cx cy R n rot).sides with hs
  have hspos : (0 : ℝ) < (s : ℝ) := mkPolygon_sides_pos cx cy R n rot
  have hsne : ((s : ℝ)) ≠ 0 := ne_of_gt hspos
  unfold Polygon.edgeB
  rw [mkPolygon_len]
  have hverts : (mkPolygon cx cy R n rot).vertices = Polygon.computeVertices cx cy R s rot := rfl
  rw [hverts]
  rcases Nat.lt_or_ge (i + 1) s.toNat with hlt | hge
  · rw [Nat.mod_eq_of_lt hlt, computeVertices_vget cx cy R s rot (i + 1) hlt]
    have hang : rot + (((i + 1 : ℕ) : ℝ) / (s : ℝ)) * (2 * Real.pi)
        = (rot + ((i : ℝ) / (s : ℝ)) * (2 * Real.pi)) + 2 * (Real.pi / (s : ℝ)) := by
      push_cast
      field_simp
      ring
    rw [hang]
  · have heq : i + 1 = s.toNat := le_antisymm hi hge
    rw [heq, Nat.mod_self, computeVertices_vget cx cy R s rot 0 (by omega)]
    have hcast : (i : ℝ) = (s : ℝ) - 1 := by
      have h0 : (0 : ℤ) ≤ s := by
        by_contra hneg
        push_neg at hneg
        have : ((s : ℝ)) < 0 := by exact_mod_cast hneg
        linarith
      have h1 : (i : ℤ) = s - 1 := by omega
      calc (i : ℝ) = ((i : ℤ) : ℝ) := by push_cast; ring
        _ = (s : ℝ) - 1 := by rw [h1]; push_cast; ring
    have hang : (rot + ((i : ℝ) / (s : ℝ)) * (2 * Real.pi)) + 2 * (Real.pi / (s : ℝ))
        = rot + 2 * Real.pi := by
      rw [hcast]
      field_simp
      ring
    have hang0 : rot + (((0 : ℕ) : ℝ) / (s : ℝ)) * (2 * Real.pi) = rot := by
      push_cast
      ring
    rw [hang, hang0, show rot + 2 * Real.pi = rot + 2 * Real.pi by rfl]
    rw [Real.cos_add_two_pi, Real.sin_add_two_pi]

/-- With a nonzero radius, all edges of a constructed polygon are
non-degenerate: consecutive vertex angles differ by `2π/s ∈ (0, 2π)`. -/
lemma mkPolygon_nondeg (cx cy R n rot : ℝ) (hR : R ≠ 0) :
    ∀ i < (mkPolygon cx cy R n rot).vertices.length,
      (mkPolygon cx cy R n rot).edgeA i ≠ (mkPolygon cx cy R n rot).edgeB i := by
  intro i hi
  rw [mkPolygon_len] at hi
  rw [mkPolygon_edgeA_angle cx cy R n rot i hi, mkPolygon_edgeB_angle cx cy R n rot i hi]
  set s : ℤ := (mkPolygon cx cy R n rot).sides with hs
  have hspos : (0 : ℝ) < (s : ℝ) := mkPolygon_sides_pos cx cy R n rot
  have hs3 : (3 : ℝ) ≤ (s : ℝ) := by
    have : (3 : ℤ) ≤ s := le_max_left _ _
    exact_mod_cast this
  set α := rot + ((i : ℝ) / (s : ℝ)) * (2 * Real.pi) with hα
  set δ := Real.pi / (s : ℝ) with hδ
  intro hcontra
  rw [Prod.ext_iff] at hcontra
  obtain ⟨h1, h2⟩ := hcontra
  have hc : Real.cos α = Real.cos (α + 2 * δ) := by
    have := h1
    field_simp at this
    rcases this with h | h
    · exact h
    · exact absurd h hR
  have hsn : Real.sin α = Real.sin (α + 2 * δ) := by
    have := h2
    field_simp at this
    rcases this with h | h
    · exact h
    · exact absurd h hR
  have hone : Real.cos (2 * δ) = 1 := by
    have := Real.cos_sub (α + 2 * δ) α
    rw [show α + 2 * δ - α = 2 * δ by ring] at this
    rw [this, ← hc, ← hsn]
    rw [← Real.cos_sq_add_sin_sq α]
    ring
  have hlt : Real.cos (2 * δ) < 1 := by
    have h2δpos : 0 < 2 * δ := by
      rw [hδ]
      have := Real.pi_pos
      positivity
    have h2δle : 2 * δ ≤ Real.pi := by
      rw [hδ, mul_div_assoc', div_le_iff hspos]
      nlinarith [Real.pi_pos]
    calc Real.cos (2 * δ) < Real.cos 0 :=
          Real.cos_lt_cos_of_nonneg_of_le_pi (le_refl 0) h2δle h2δpos
      _ = 1 := Real.cos_zero
  linarith

/-- Every edge of a constructed polygon keeps distance at least the apothem
from the polygon centre. -/
lemma mkPolygon_edgeDist_ge (cx cy R n rot : ℝ) (hR : 0 ≤ R) (i : ℕ)
    (hi : i < (mkPolygon cx cy R n rot).vertices.length) :
    (mkPolygon cx cy R n rot).apothem ≤ (mkPolygon cx cy R n rot).edgeDist cx cy i := by
  rw [mkPolygon_len] at hi
  set s : ℤ := (mkPolygon cx cy R n rot).sides with hs
  have hspos : (0 : ℝ) < (s : ℝ) := mkPolygon_sides_pos cx cy R n rot
  have hs3 : (3 : ℝ) ≤ (s : ℝ) := by
    have : (3 : ℤ) ≤ s := le_max_left _ _
    exact_mod_cast this
  set α := rot + ((i : ℝ) / (s : ℝ)) * (2 * Real.pi) with hα
  set δ := Real.pi / (s : ℝ) with hδ
  have hcosδ : 0 ≤ Real.cos δ := by
    apply Real.cos_nonneg_of_mem_Icc
    constructor
    · rw [hδ]
      have h1 : 0 < Real.pi / (s : ℝ) := by positivity
      linarith [Real.pi_pos]
    · rw [hδ, div_le_div_iff hspos (by norm_num : (0:ℝ) < 2)]
      nlinarith [Real.pi_pos]
  unfold Polygon.edgeDist Polygon.edgeClosest
  rw [mkPolygon_edgeA_angle cx cy R n rot i hi, mkPolygon_edgeB_angle cx cy R n rot i hi]
  dsimp only
  obtain ⟨t, ht0, ht1, hcp⟩ := specClosest_param cx cy
    (cx + Real.cos α * R) (cy + Real.sin α * R)
    (cx + Real.cos (α + 2 * δ) * R) (cy + Real.sin (α + 2 * δ) * R)
  rw [hcp]
  dsimp only
  set u := Real.cos α * R + (Real.cos (α + 2 * δ) * R - Real.cos α * R) * t with hu
  set v := Real.sin α * R + (Real.sin (α + 2 * δ) * R - Real.sin α * R) * t with hv
  have harg : (cx - (cx + Real.cos α * R + (cx + Real.cos (α + 2 * δ) * R - (cx + Real.cos α * R)) * t)) *
        (cx - (cx + Real.cos α * R + (cx + Real.cos (α + 2 * δ) * R - (cx + Real.cos α * R)) * t)) +
      (cy - (cy + Real.sin α * R + (cy + Real.sin (α + 2 * δ) * R - (cy + Real.sin α * R)) * t)) *
        (cy - (cy + Real.sin α * R + (cy + Real.sin (α + 2 * δ) * R - (cy + Real.sin α * R)) * t))
      = u * u + v * v := by
    rw [hu, hv]
    ring
  rw [harg]
  have happ : (mkPolygon cx cy R n rot).apothem = R * Real.cos δ := by
    unfold Polygon.apothem
    rw [← hs, ← hδ]
    rfl
  rw [happ]
  exact dist_point_on_chord R α δ u v t hR hcosδ ht0 ht1 (by rw [hu]; ring) (by rw [hv]; ring)

/-- C9 (amended): for a regular polygon with positive radius and a circle
centred at the polygon's own centre whose radius satisfies
`r + 1e-4 < apothem`, `collideCircle` reports no hit.  (The original claim —
centre anywhere inside, `r < apothem` — is false: the centre can sit
arbitrarily close to an edge, and even at the exact centre the `1e-4`
tolerance can fire when `apothem - r ≤ 1e-4`.) -/
theorem collideCircle_center_no_hit (cx cy R n rot r : ℝ) (hR : 0 < R)
    (hr : r + 0.0001 < (mkPolygon cx cy R n rot).apothem) :
    ((mkPolygon cx cy R n rot).collideCircle cx cy r).hit = false := by
  have hlen1 : 1 ≤ (mkPolygon cx cy R n rot).vertices.length := by
    rw [mkPolygon_len]
    have : (3 : ℤ) ≤ (mkPolygon cx cy R n rot).sides := le_max_left _ _
    omega
  obtain ⟨j, hj, hjmin, heq⟩ := collideCircle_char (mkPolygon cx cy R n rot) cx cy r hlen1
    (mkPolygon_nondeg cx cy R n rot (ne_of_gt hR))
  have hdj := mkPolygon_edgeDist_ge cx cy R n rot (le_of_lt hR) j hj
  rw [heq, if_neg (by linarith)]

/-- C9 witness for the amended theorem: the square `mkPolygon 0 0 √2 4 (π/4)`
(apothem 1) with a circle of radius `0.3` at the centre reports no hit. -/
theorem collideCircle_center_no_hit_witness :
    (0 : ℝ) < Real.sqrt 2 ∧
    (0.3 : ℝ) + 0.0001 < (mkPolygon 0 0 (Real.sqrt 2) 4 (Real.pi / 4)).apothem ∧
    ((mkPolygon 0 0 (Real.sqrt 2) 4 (Real.pi / 4)).collideCircle 0 0 0.3).hit = false := by
  have h2 : (0 : ℝ) < Real.sqrt 2 := Real.sqrt_pos.mpr (by norm_num)
  have happ : (mkPolygon 0 0 (Real.sqrt 2) 4 (Real.pi / 4)).apothem = 1 := by
    unfold Polygon.apothem
    have hsides : (mkPolygon 0 0 (Real.sqrt 2) 4 (Real.pi / 4)).sides = 4 := by
      show max 3 ⌊(4:ℝ)⌋ = 4
      norm_num
    have hrad : (mkPolygon 0 0 (Real.sqrt 2) 4 (Real.pi / 4)).radius = Real.sqrt 2 := rfl
    rw [hsides, hrad, show (((4:ℤ)):ℝ) = 4 by norm_num, Real.cos_pi_div_four]
    rw [mul_div_assoc', Real.mul_self_sqrt (by norm_num)]
    norm_num
  refine ⟨h2, by rw [happ]; norm_num, ?_⟩
  exact collideCircle_center_no_hit 0 0 (Real.sqrt 2) 4 (Real.pi / 4) 0.3 h2
    (by rw [happ]; norm_num)

/-- Extract the real value of a finite `JSNum`.  Used where ball-state code
consumes fields of a hit result: on every hit path those fields are finite
(`collideCircle_char` exhibits them as `fin` values), so the junk default is
never observed. -/
def unfin : JSNum → ℝ
  | JSNum.fin x => x
  | _ => 0

/-- The inner (tier-1) ball: `this.inner.ball` in ball.js. -/
structure InnerBall where
  x : ℝ
  y : ℝ
  vx : ℝ
  vy : ℝ
  radius : ℝ
  gravity : ℝ

/-- The tier-2 ball: `ip.extra.ball` in app.js (it has no gravity field). -/
structure ExtraBall where
  x : ℝ
  y : ℝ
  vx : ℝ
  vy : ℝ
  radius : ℝ

/-- The lazily created tier-2 state `ip.extra` in app.js. -/
structure ExtraState where
  polygonSides : ℝ
  ball : ExtraBall

/-- The tier-1 state `this.inner` in ball.js; `extra` is the property app.js
attaches lazily (absent ⇒ `none`). -/
structure InnerState where
  cx : ℝ
  cy : ℝ
  radius : ℝ
  polygonSides : ℝ
  ball : InnerBall
  extra : Option ExtraState

/-- The `BallSim` state (the `color` field is ignored: it is only read by the
renderer).  Depths are integers, as produced by `parseInt` and the literals
in app.js. -/
structure BallState where
  x : ℝ
  y : ℝ
  vx : ℝ
  vy : ℝ
  radius : ℝ
  gravity : ℝ
  friction : ℝ
  nestedDepth : ℤ
  maxNestedDepth : ℤ
  inner : Option InnerState

/-- The options object of the `BallSim` constructor (absent fields are
`none`). -/
structure BallOptions where
  radius : Option ℝ
  gravity : Option ℝ
  friction : Option ℝ
  nestedDepth : Option ℤ
  maxNestedDepth : Option ℤ

/-- JavaScript `a || d` for a possibly absent number (`0` is falsy). -/
def jsOrR (o : Option ℝ) (d : ℝ) : ℝ :=
  match o with
  | none => d
  | some x => if x = 0 then d else x

/-- JavaScript `a || d` for a possibly absent integer. -/
def jsOrZ (o : Option ℤ) (d : ℤ) : ℤ :=
  match o with
  | none => d
  | some x => if x = 0 then d else x

/-- The `BallSim` constructor.  `ρ₁, ρ₂` are the two `Math.random()` draws
for the inner ball's initial velocity. -/
def mkBallSim (x y vx vy : ℝ) (o : BallOptions) (ρ₁ ρ₂ : ℝ) : BallState :=
  let radius := jsOrR o.radius 36
  let gravity := o.gravity.getD 800
  let friction := o.friction.getD 0.995
  let nestedDepth := jsOrZ o.nestedDepth 0
  let maxNestedDepth := o.maxNestedDepth.getD 3
  { x := x, y := y, vx := vx, vy := vy, radius := radius, gravity := gravity,
    friction := friction, nestedDepth := nestedDepth, maxNestedDepth := maxNestedDepth,
    inner :=
      if nestedDepth < maxNestedDepth then
        some
          { cx := 0, cy := 0, radius := radius * 0.42,
            polygonSides := max 3 (4 + (nestedDepth : ℝ)),
            ball :=
              { x := -(radius * 0.12), y := -(radius * 0.14),
                vx := (ρ₁ - 0.5) * 40, vy := (ρ₂ - 0.5) * 40,
                radius := max 6 (radius * 0.22), gravity := gravity * 1.1 },
            extra := none }
      else none }

/-- `BallSim.applyGravity(dt)`. -/
def applyGravity (s : BallState) (dt : ℝ) : BallState :=
  { s with vy := s.vy + s.gravity * dt }

/-- `BallSim.integrate(dt)` (`Math.pow(friction, dt*60)` modelled by `rpow`). -/
def integrate (s : BallState) (dt : ℝ) : BallState :=
  { s with
    x := s.x + s.vx * dt,
    y := s.y + s.vy * dt,
    vx := s.vx * Real.rpow s.friction (dt * 60),
    vy := s.vy * Real.rpow s.friction (dt * 60) }

/-- The reflection step `v' = v - 2 (v·n) n` shared by all three collision
responses in the source. -/
def reflectVel (vx vy nx ny : ℝ) : ℝ × ℝ :=
  (vx - 2 * (vx * nx + vy * ny) * nx, vy - 2 * (vx * nx + vy * ny) * ny)

/-- `BallSim.handleCollisionWithPolygon(polygon)`: on hit, reflect the
velocity across the normal, push the position out by `penetration + 0.5`
along the normal, damp the velocity by `0.98`, and report `true`. -/
def handleCollisionWithPolygon (s : BallState) (p : Polygon) : BallState × Bool :=
  let col := p.collideCircle s.x s.y s.radius
  if col.hit then
    let v' := reflectVel s.vx s.vy col.normal.1 col.normal.2
    ({ s with
        vx := v'.1 * 0.98,
        vy := v'.2 * 0.98,
        x := s.x + col.normal.1 * (unfin col.penetration + 0.5),
        y := s.y + col.normal.2 * (unfin col.penetration + 0.5) }, true)
  else (s, false)

/-- `BallSim.updateInner(dt)`: integrate the inner ball (half parent gravity,
0.999 drag), collide it against the freshly rebuilt inner polygon, and on hit
reflect, push out by `penetration + 0.5`, damp ×0.98, and grow the inner
polygon side count by 1 capped at 20. -/
def updateInner (s : BallState) (dt : ℝ) : BallState × Bool :=
  match s.inner with
  | none => (s, false)
  | some ip =>
    let vy1 := ip.ball.vy + (s.gravity * 0.5) * dt
    let x1 := ip.ball.x + ip.ball.vx * dt
    let y1 := ip.ball.y + vy1 * dt
    let vx2 := ip.ball.vx * 0.999
    let vy2 := vy1 * 0.999
    let innerPoly := mkPolygon ip.cx ip.cy ip.radius ip.polygonSides (Real.pi / 2)
    let col := innerPoly.collideCircle x1 y1 ip.ball.radius
    if col.hit then
      let v' := reflectVel vx2 vy2 col.normal.1 col.normal.2
      let b' : InnerBall :=
        { ip.ball with
          x := x1 + col.normal.1 * (unfin col.penetration + 0.5),
          y := y1 + col.normal.2 * (unfin col.penetration + 0.5),
          vx := v'.1 * 0.98,
          vy := v'.2 * 0.98 }
      let ip' : InnerState := { ip with polygonSides := min 20 (ip.polygonSides + 1), ball := b' }
      ({ s with inner := some ip' }, true)
    else
      let ip' : InnerState := { ip with ball := { ip.ball with x := x1, y := y1, vx := vx2, vy := vy2 } }
      ({ s with inner := some ip' }, false)

/-- The tier-2 state created by `handleRecursiveUpdates` on its first
qualifying tick (`ip.extra = {...}` in app.js); `ρ₁, ρ₂` are the two
`Math.random()` draws, `ip` is the tier-1 state after `updateInner` ran. -/
def mkExtra (ip : InnerState) (depth : ℤ) (ρ₁ ρ₂ : ℝ) : ExtraState :=
  { polygonSides := max 3 (3 + (depth : ℝ) + 1),
    ball :=
      { x := ip.ball.x * 0.35,
        y := ip.ball.y * 0.35,
        vx := (ρ₁ - 0.5) * 30,
        vy := (ρ₂ - 0.5) * 30,
        radius := max 2 (ip.ball.radius * 0.35) } }

/-- `handleRecursiveUpdates(parentBall, dt, depth)` from app.js: run the
tier-1 update, and — when `nestedDepth + 1 < maxNestedDepth` — lazily create
the tier-2 state, integrate its ball (0.18 × parent gravity, no drag),
collide it against the tiny polygon of radius `0.6 × tier-1 ball radius`,
and on hit reflect, push out by `penetration + 0.2`, damp ×0.98 and grow the
tier-2 side count by 1 capped at 30. -/
def handleRecursiveUpdates (s : BallState) (dt : ℝ) (depth : ℤ) (ρ₁ ρ₂ : ℝ) : BallState :=
  match s.inner with
  | none => s
  | some _ =>
    let s1 := (updateInner s dt).1
    if s1.nestedDepth + 1 < s1.maxNestedDepth then
      match s1.inner with
      | none => s1
      | some ip =>
        let ex := ip.extra.getD (mkExtra ip depth ρ₁ ρ₂)
        let vy1 := ex.ball.vy + (s1.gravity * 0.18) * dt
        let x1 := ex.ball.x + ex.ball.vx * dt
        let y1 := ex.ball.y + vy1 * dt
        let tinyPoly := mkPolygon 0 0 (ip.ball.radius * 0.6) ex.polygonSides (Real.pi / 2)
        let col := tinyPoly.collideCircle x1 y1 ex.ball.radius
        if col.hit then
          let v' := reflectVel ex.ball.vx vy1 col.normal.1 col.normal.2
          let eb' : ExtraBall :=
            { ex.ball with
              x := x1 + col.normal.1 * (unfin col.penetration + 0.2),
              y := y1 + col.normal.2 * (unfin col.penetration + 0.2),
              vx := v'.1 * 0.98,
              vy := v'.2 * 0.98 }
          let ex' : ExtraState :=
            { polygonSides := min 30 (ex.polygonSides + 1), ball := eb' }
          let ip' : InnerState := { ip with extra := some ex' }
          { s1 with inner := some ip' }
        else
          let ex' : ExtraState :=
            { ex with ball := { ex.ball with x := x1, y := y1, vy := vy1 } }
          let ip' : InnerState := { ip with extra := some ex' }
          { s1 with inner := some ip' }
    else s1

/-- The `clamp(v, a, b)` helper of app.js: `Math.max(a, Math.min(b, v))`. -/
def clamp (v a b : ℝ) : ℝ := max a (min b v)

/-- The world state of app.js: the main ball and the world polygon. -/
structure World where
  ball : BallState
  poly : Polygon

/-- The driver tick `update(dt)` from app.js: gravity, integration, world
collision (growing the polygon by one side on a hit and damping the ball),
position clamping to the canvas, then the recursive nested update. -/
def update (w : World) (dt W H : ℝ) (ρ₁ ρ₂ : ℝ) : World :=
  let b1 := applyGravity w.ball dt
  let b2 := integrate b1 dt
  let hc := handleCollisionWithPolygon b2 w.poly
  let b3 := hc.1
  let collided := hc.2
  let poly' := if collided then
      Polygon.updateVertices ((w.poly.setSides ((w.poly.sides : ℝ) + 1)))
    else w.poly
  let b4 := if collided then { b3 with vx := b3.vx * 0.98, vy := b3.vy * 0.98 } else b3
  let b5 := { b4 with x := clamp b4.x 0 W, y := clamp b4.y 0 H }
  let b6 := handleRecursiveUpdates b5 dt 0 ρ₁ ρ₂
  { ball := b6, poly := poly' }

/-- C4: a body constructed with nested depth `d` and maximum depth `m` has an
inner level iff `d < m` (so `maxDepth = 0` yields none), and the inner level
is initialised with radius `0.42·R`, side count `max(3, 4+d)`, ball offset
`(-0.12·R, -0.14·R)`, velocity components in `[-20, 20]` (from
`Math.random() ∈ [0,1)`), ball radius `max(6, 0.22·R)` and gravity `1.1·G`,
where `R`/`G` are the parent's resolved radius and gravity. -/
theorem ballsim_ctor (x y vx vy : ℝ) (o : BallOptions) (d m : ℤ) (ρ₁ ρ₂ : ℝ)
    (hd : o.nestedDepth = some d) (hm : o.maxNestedDepth = some m) :
    ((mkBallSim x y vx vy o ρ₁ ρ₂).inner.isSome ↔ d < m) ∧
    (∀ ip, (mkBallSim x y vx vy o ρ₁ ρ₂).inner = some ip →
      ip.radius = 0.42 * (mkBallSim x y vx vy o ρ₁ ρ₂).radius ∧
      ip.polygonSides = max 3 (4 + (d : ℝ)) ∧
      ip.ball.x = -0.12 * (mkBallSim x y vx vy o ρ₁ ρ₂).radius ∧
      ip.ball.y = -0.14 * (mkBallSim x y vx vy o ρ₁ ρ₂).radius ∧
      ip.ball.radius = max 6 (0.22 * (mkBallSim x y vx vy o ρ₁ ρ₂).radius) ∧
      ip.ball.gravity = 1.1 * (mkBallSim x y vx vy o ρ₁ ρ₂).gravity ∧
      (0 ≤ ρ₁ → ρ₁ < 1 → -20 ≤ ip.ball.vx ∧ ip.ball.vx ≤ 20) ∧
      (0 ≤ ρ₂ → ρ₂ < 1 → -20 ≤ ip.ball.vy ∧ ip.ball.vy ≤ 20)) := by
  have hdepth : jsOrZ o.nestedDepth 0 = d := by
    rw [hd]
    show (if d = 0 then 0 else d) = d
    split_ifs with h
    · omega
    · rfl
  have hmax : o.maxNestedDepth.getD 3 = m := by rw [hm]; rfl
  unfold mkBallSim
  dsimp only
  rw [hdepth, hmax]
  constructor
  · split_ifs with h
    · simp [h]
    · simp [h]
  · intro ip hip
    split_ifs at hip with h
    · rw [Option.some_inj] at hip
      subst hip
      refine ⟨by dsimp only; ring, rfl, by dsimp only; ring, by dsimp only; ring,
        by dsimp only; rw [mul_comm], by dsimp only; ring, ?_, ?_⟩
      · intro h0 h1
        constructor <;> · dsimp only; nlinarith
      · intro h0 h1
        constructor <;> · dsimp only; nlinarith

/-- C4 witness: the constructor applied at the app.js call-site parameters
(`radius 24, gravity 900, nestedDepth 0, maxNestedDepth 3`) with
`Math.random()` draws `0.5`. -/
theorem ballsim_ctor_witness :
    (let o : BallOptions :=
      { radius := some 24, gravity := some 900, friction := none,
        nestedDepth := some 0, maxNestedDepth := some 3 }
    ((mkBallSim 0 0 120 30 o 0.5 0.5).inner.isSome ↔ (0 : ℤ) < 3) ∧
    (∀ ip, (mkBallSim 0 0 120 30 o 0.5 0.5).inner = some ip →
      ip.radius = 0.42 * (mkBallSim 0 0 120 30 o 0.5 0.5).radius ∧
      ip.polygonSides = max 3 (4 + ((0 : ℤ) : ℝ)) ∧
      ip.ball.x = -0.12 * (mkBallSim 0 0 120 30 o 0.5 0.5).radius ∧
      ip.ball.y = -0.14 * (mkBallSim 0 0 120 30 o 0.5 0.5).radius ∧
      ip.ball.radius = max 6 (0.22 * (mkBallSim 0 0 120 30 o 0.5 0.5).radius) ∧
      ip.ball.gravity = 1.1 * (mkBallSim 0 0 120 30 o 0.5 0.5).gravity ∧
      ((0:ℝ) ≤ 0.5 → (0.5:ℝ) < 1 → -20 ≤ ip.ball.vx ∧ ip.ball.vx ≤ 20) ∧
      ((0:ℝ) ≤ 0.5 → (0.5:ℝ) < 1 → -20 ≤ ip.ball.vy ∧ ip.ball.vy ≤ 20))) :=
  ballsim_ctor 0 0 120 30
    { radius := some 24, gravity := some 900, friction := none,
      nestedDepth := some 0, maxNestedDepth := some 3 } 0 3 0.5 0.5 rfl rfl

/-- C3: when the collision response processes a hit whose normal `(nx, ny)`
is a unit vector, the reflected velocity `v'` (the value before the `×0.98`
damping, which is what the final state's velocity equals after the damping)
satisfies `v'·n = -(v·n)` exactly and has the same tangential component as
the incoming velocity. -/
theorem reflection_law (s : BallState) (p : Polygon) (nx ny : ℝ)
    (hhit : (p.collideCircle s.x s.y s.radius).hit = true)
    (hn : (p.collideCircle s.x s.y s.radius).normal = (nx, ny))
    (hu : nx ^ 2 + ny ^ 2 = 1) :
    ((handleCollisionWithPolygon s p).1.vx = (reflectVel s.vx s.vy nx ny).1 * 0.98 ∧
     (handleCollisionWithPolygon s p).1.vy = (reflectVel s.vx s.vy nx ny).2 * 0.98) ∧
    ((reflectVel s.vx s.vy nx ny).1 * nx + (reflectVel s.vx s.vy nx ny).2 * ny
      = -(s.vx * nx + s.vy * ny)) ∧
    ((reflectVel s.vx s.vy nx ny).1 -
        ((reflectVel s.vx s.vy nx ny).1 * nx + (reflectVel s.vx s.vy nx ny).2 * ny) * nx
      = s.vx - (s.vx * nx + s.vy * ny) * nx) ∧
    ((reflectVel s.vx s.vy nx ny).2 -
        ((reflectVel s.vx s.vy nx ny).1 * nx + (reflectVel s.vx s.vy nx ny).2 * ny) * ny
      = s.vy - (s.vx * nx + s.vy * ny) * ny) := by
  refine ⟨?_, ?_, ?_, ?_⟩
  · unfold handleCollisionWithPolygon
    dsimp only
    rw [if_pos hhit, hn]
    exact ⟨rfl, rfl⟩
  · unfold reflectVel
    dsimp only
    linear_combination (-(2 * (s.vx * nx + s.vy * ny))) * hu
  · unfold reflectVel
    dsimp only
    linear_combination (2 * (s.vx * nx + s.vy * ny) * nx) * hu
  · unfold reflectVel
    dsimp only
    linear_combination (2 * (s.vx * nx + s.vy * ny) * ny) * hu

/-- C3 witness: a ball at `(0.9, 0)` with radius `0.5` and velocity
`(-3, 4)` hitting the square's right edge, whose computed normal is the unit
vector `(1, 0)`. -/
theorem reflection_law_witness :
    (let s : BallState :=
      { x := 0.9, y := 0, vx := -3, vy := 4, radius := 0.5, gravity := 900,
        friction := 0.995, nestedDepth := 0, maxNestedDepth := 3, inner := none }
    let p := mkPolygon 0 0 (Real.sqrt 2) 4 (Real.pi / 4)
    ((handleCollisionWithPolygon s p).1.vx = (reflectVel s.vx s.vy 1 0).1 * 0.98 ∧
     (handleCollisionWithPolygon s p).1.vy = (reflectVel s.vx s.vy 1 0).2 * 0.98) ∧
    ((reflectVel s.vx s.vy 1 0).1 * 1 + (reflectVel s.vx s.vy 1 0).2 * 0
      = -(s.vx * 1 + s.vy * 0)) ∧
    ((reflectVel s.vx s.vy 1 0).1 -
        ((reflectVel s.vx s.vy 1 0).1 * 1 + (reflectVel s.vx s.vy 1 0).2 * 0) * 1
      = s.vx - (s.vx * 1 + s.vy * 0) * 1) ∧
    ((reflectVel s.vx s.vy 1 0).2 -
        ((reflectVel s.vx s.vy 1 0).1 * 1 + (reflectVel s.vx s.vy 1 0).2 * 0) * 0
      = s.vy - (s.vx * 1 + s.vy * 0) * 0)) := by
  refine reflection_law _ _ 1 0 ?_ ?_ (by norm_num)
  · dsimp only
    rw [square_collide]
  · dsimp only
    rw [square_collide]

/-- Side count of the inner polygon of a state (0 when no inner level). -/
def innerSides (s : BallState) : ℝ :=
  match s.inner with
  | some ip => ip.polygonSides
  | none => 0

/-- One `updateInner` step preserves the inner side-count invariant
(integer, at most 20) and never discards the inner level. -/
lemma updateInner_preserves (st : BallState) (d : ℝ)
    (h : ∀ ip, st.inner = some ip →
      (∃ k : ℤ, ip.polygonSides = (k : ℝ)) ∧ ip.polygonSides ≤ 20) :
    ∀ ip', (updateInner st d).1.inner = some ip' →
      (∃ k' : ℤ, ip'.polygonSides = (k' : ℝ)) ∧ ip'.polygonSides ≤ 20 := by
  intro ip' hip'
  rcases hst : st.inner with _ | ip
  · rw [show (updateInner st d).1 = st by unfold updateInner; rw [hst]] at hip'
    exact h ip' hip'
  · obtain ⟨⟨k, hk⟩, hle⟩ := h ip hst
    unfold updateInner at hip'
    rw [hst] at hip'
    dsimp only at hip'
    split_ifs at hip' with hcol
    · rw [Option.some_inj] at hip'
      subst hip'
      dsimp only
      constructor
      · refine ⟨min 20 (k + 1), ?_⟩
        rw [hk]
        push_cast
        rfl
      · exact min_le_left _ _
    · rw [Option.some_inj] at hip'
      subst hip'
      exact ⟨⟨k, hk⟩, hle⟩

/-- C6: `updateInner` never decreases the inner side count; on a call that
reports a hit the side count becomes `sides + 1` unless it is already 20 (the
cap), it stays put on a miss, and along any sequence of `updateInner` calls
it never exceeds 20 (starting from an integer value at most 20, which every
inner level of the program has). -/
theorem updateInner_sides (s : BallState) (dt : ℝ) (ip : InnerState)
    (h : s.inner = some ip) (hk : ∃ k : ℤ, ip.polygonSides = (k : ℝ))
    (hle : ip.polygonSides ≤ 20) :
    (∃ ip', (updateInner s dt).1.inner = some ip' ∧
      ip.polygonSides ≤ ip'.polygonSides ∧
      ((updateInner s dt).2 = true →
        ip'.polygonSides = if ip.polygonSides = 20 then 20 else ip.polygonSides + 1) ∧
      ((updateInner s dt).2 = false → ip'.polygonSides = ip.polygonSides) ∧
      (∃ k' : ℤ, ip'.polygonSides = (k' : ℝ)) ∧ ip'.polygonSides ≤ 20) ∧
    (∀ l : List ℝ, innerSides (l.foldl (fun st d => (updateInner st d).1) s) ≤ 20) := by
  obtain ⟨k, hkk⟩ := hk
  constructor
  · have hk19 : ip.polygonSides ≠ 20 → ip.polygonSides ≤ 19 := by
      intro h20
      have h1 : k ≤ 20 := by exact_mod_cast hkk ▸ hle
      have h2 : k ≠ 20 := by
        intro hc
        exact h20 (by rw [hkk, hc]; norm_num)
      have : k ≤ 19 := by omega
      calc ip.polygonSides = (k : ℝ) := hkk
        _ ≤ 19 := by exact_mod_cast this
    unfold updateInner
    rw [h]
    dsimp only
    split_ifs with hcol h20 h20
    · refine ⟨_, rfl, ?_, fun _ => ?_, ?_, ?_, ?_⟩
      · dsimp only
        rw [h20]
        norm_num
      · dsimp only
        rw [h20]
        norm_num
      · intro hc
        exact absurd hc (by simp)
      · dsimp only
        refine ⟨min 20 (k + 1), ?_⟩
        rw [hkk]
        push_cast
        rfl
      · dsimp only
        exact min_le_left _ _
    · have hup : min 20 (ip.polygonSides + 1) = ip.polygonSides + 1 :=
        min_eq_right (by linarith [hk19 h20])
      refine ⟨_, rfl, ?_, fun _ => ?_, ?_, ?_, ?_⟩
      · dsimp only
        rw [hup]
        linarith
      · dsimp only
        exact hup
      · intro hc
        exact absurd hc (by simp)
      · dsimp only
        refine ⟨min 20 (k + 1), ?_⟩
        rw [hkk]
        push_cast
        rfl
      · dsimp only
        exact min_le_left _ _
    · exact ⟨_, rfl, le_refl _, by simp, fun _ => rfl, ⟨k, hkk⟩, hle⟩
    · exact ⟨_, rfl, le_refl _, by simp, fun _ => rfl, ⟨k, hkk⟩, hle⟩
  · intro l
    have hinv : ∀ (l : List ℝ) (st : BallState),
        (∀ ip0, st.inner = some ip0 →
          (∃ k0 : ℤ, ip0.polygonSides = (k0 : ℝ)) ∧ ip0.polygonSides ≤ 20) →
        innerSides (l.foldl (fun st d => (updateInner st d).1) st) ≤ 20 := by
      intro l
      induction l with
      | nil =>
        intro st hst
        rw [List.foldl_nil]
        unfold innerSides
        rcases hi : st.inner with _ | ip0
        · show (0 : ℝ) ≤ 20
          norm_num
        · show ip0.polygonSides ≤ 20
          exact (hst ip0 hi).2
      | cons d l ih =>
        intro st hst
        rw [List.foldl_cons]
        exact ih _ (updateInner_preserves st d hst)
    refine hinv l s ?_
    intro ip0 hip0
    rw [h, Option.some_inj] at hip0
    subst hip0
    exact ⟨⟨k, hkk⟩, hle⟩

/-- C6 witness: the invariant instantiated at a concrete state whose inner
level has 4 sides. -/
theorem updateInner_sides_witness :
    (let ip0 : InnerState :=
      { cx := 0, cy := 0, radius := 15, polygonSides := 4,
        ball := { x := -4, y := -5, vx := 10, vy := -10, radius := 7, gravity := 990 },
        extra := none }
    let s0 : BallState :=
      { x := 0, y := 0, vx := 0, vy := 0, radius := 36, gravity := 900,
        friction := 0.995, nestedDepth := 0, maxNestedDepth := 3, inner := some ip0 }
    (∃ ip', (updateInner s0 0.016).1.inner = some ip' ∧
      ip0.polygonSides ≤ ip'.polygonSides ∧
      ((updateInner s0 0.016).2 = true →
        ip'.polygonSides = if ip0.polygonSides = 20 then 20 else ip0.polygonSides + 1) ∧
      ((updateInner s0 0.016).2 = false → ip'.polygonSides = ip0.polygonSides) ∧
      (∃ k' : ℤ, ip'.polygonSides = (k' : ℝ)) ∧ ip'.polygonSides ≤ 20) ∧
    (∀ l : List ℝ, innerSides (l.foldl (fun st d => (updateInner st d).1) s0) ≤ 20)) :=
  updateInner_sides _ 0.016 _ rfl ⟨4, by norm_num⟩ (by norm_num)

/-- `updateInner` does not change the depths or gravity, keeps the inner
level present, and does not touch the `extra` property. -/
lemma updateInner_state (s : BallState) (dt : ℝ) :
    (updateInner s dt).1.nestedDepth = s.nestedDepth ∧
    (updateInner s dt).1.maxNestedDepth = s.maxNestedDepth ∧
    (updateInner s dt).1.gravity = s.gravity ∧
    ((updateInner s dt).1.inner = none ↔ s.inner = none) ∧
    (∀ ip, s.inner = some ip →
      ∃ ip', (updateInner s dt).1.inner = some ip' ∧ ip'.extra = ip.extra ∧
        ip'.ball.radius = ip.ball.radius) := by
  unfold updateInner
  rcases h : s.inner with _ | ip
  · refine ⟨rfl, rfl, rfl, by simp [h], ?_⟩
    intro ip0 hip0
    exact absurd hip0 (by simp)
  · dsimp only
    split_ifs with hcol
    · refine ⟨rfl, rfl, rfl, by simp, ?_⟩
      intro ip0 hip0
      rw [Option.some_inj] at hip0
      subst hip0
      exact ⟨_, rfl, rfl, rfl⟩
    · refine ⟨rfl, rfl, rfl, by simp, ?_⟩
      intro ip0 hip0
      rw [Option.some_inj] at hip0
      subst hip0
      exact ⟨_, rfl, rfl, rfl⟩

/-- When the tier-2 gate is closed (`maxNestedDepth = 1` and a non-negative
depth), a recursive update neither creates an `extra` state nor changes the
gate's inputs. -/
lemma handleRecursiveUpdates_gate_closed (st : BallState) (dt : ℝ) (depth : ℤ) (ρ₁ ρ₂ : ℝ)
    (hmax : st.maxNestedDepth = 1) (hd0 : 0 ≤ st.nestedDepth)
    (hnoex : ∀ ip, st.inner = some ip → ip.extra = none) :
    (handleRecursiveUpdates st dt depth ρ₁ ρ₂).maxNestedDepth = 1 ∧
    0 ≤ (handleRecursiveUpdates st dt depth ρ₁ ρ₂).nestedDepth ∧
    (∀ ip, (handleRecursiveUpdates st dt depth ρ₁ ρ₂).inner = some ip → ip.extra = none) := by
  obtain ⟨hnd, hmd, hg, hnone, hpres⟩ := updateInner_state st dt
  unfold handleRecursiveUpdates
  rcases h : st.inner with _ | ip
  · exact ⟨hmax, hd0, hnoex⟩
  · dsimp only
    rw [if_neg (by rw [hnd, hmd, hmax]; omega)]
    obtain ⟨ip1, hip1, hex1, _⟩ := hpres ip h
    refine ⟨by rw [hmd, hmax], by rw [hnd]; exact hd0, ?_⟩
    intro ip' hip'
    rw [hip1, Option.some_inj] at hip'
    subst hip'
    rw [hex1]
    exact hnoex ip h

/-- C5: the tier-2 (`extra`) state is materialised in a tick iff the body has
an inner level and `nestedDepth + 1 < maxNestedDepth`; with
`maxNestedDepth = 1` no tier-2 state is ever created over any sequence of
ticks; and a freshly created tier-2 state has side count
`max(3, 3 + depth + 1)`, ball position `0.35 ×` the tier-1 ball position,
velocity components in `[-15, 15]`, and radius `max(2, 0.35 ×` tier-1 ball
radius`)`. -/
theorem tier2_gating (s : BallState) (dt : ℝ) (depth : ℤ) (ρ₁ ρ₂ : ℝ)
    (hnoextra : ∀ ip, s.inner = some ip → ip.extra = none) :
    ((∃ ip', (handleRecursiveUpdates s dt depth ρ₁ ρ₂).inner = some ip' ∧ ip'.extra.isSome) ↔
      (s.inner.isSome ∧ s.nestedDepth + 1 < s.maxNestedDepth)) ∧
    (∀ (ip : InnerState) (d' : ℤ) (σ₁ σ₂ : ℝ),
      (mkExtra ip d' σ₁ σ₂).polygonSides = max 3 (3 + (d' : ℝ) + 1) ∧
      (mkExtra ip d' σ₁ σ₂).ball.x = 0.35 * ip.ball.x ∧
      (mkExtra ip d' σ₁ σ₂).ball.y = 0.35 * ip.ball.y ∧
      (mkExtra ip d' σ₁ σ₂).ball.radius = max 2 (0.35 * ip.ball.radius) ∧
      (0 ≤ σ₁ → σ₁ < 1 →
        -15 ≤ (mkExtra ip d' σ₁ σ₂).ball.vx ∧ (mkExtra ip d' σ₁ σ₂).ball.vx ≤ 15) ∧
      (0 ≤ σ₂ → σ₂ < 1 →
        -15 ≤ (mkExtra ip d' σ₁ σ₂).ball.vy ∧ (mkExtra ip d' σ₁ σ₂).ball.vy ≤ 15)) ∧
    (s.maxNestedDepth = 1 → 0 ≤ s.nestedDepth →
      ∀ l : List (ℝ × ℝ × ℝ), ∀ ip',
        (l.foldl (fun st t => handleRecursiveUpdates st t.1 depth t.2.1 t.2.2) s).inner
          = some ip' → ip'.extra = none) := by
  refine ⟨?_, ?_, ?_⟩
  · obtain ⟨hnd, hmd, hg, hnone, hpres⟩ := updateInner_state s dt
    unfold handleRecursiveUpdates
    rcases h : s.inner with _ | ip
    · simp [h]
    · dsimp only
      obtain ⟨ip1, hip1, hex1, _⟩ := hpres ip h
      by_cases hgate : s.nestedDepth + 1 < s.maxNestedDepth
      · rw [if_pos (by rw [hnd, hmd]; exact hgate)]
        rw [hip1]
        dsimp only
        constructor
        · intro _
          exact ⟨by simp [h], hgate⟩
        · intro _
          split_ifs with hcol
          · exact ⟨_, rfl, rfl⟩
          · exact ⟨_, rfl, rfl⟩
      · rw [if_neg (by rw [hnd, hmd]; exact hgate)]
        constructor
        · rintro ⟨ip', hip', hsome'⟩
          rw [hip1, Option.some_inj] at hip'
          subst hip'
          rw [hex1, hnoextra ip h] at hsome'
          exact absurd hsome' (by simp)
        · rintro ⟨_, hlt⟩
          exact absurd hlt hgate
  · intro ip d' σ₁ σ₂
    unfold mkExtra
    refine ⟨rfl, by dsimp only; ring, by dsimp only; ring, by dsimp only; rw [mul_comm],
      ?_, ?_⟩
    · intro h0 h1
      constructor <;> · dsimp only; nlinarith
    · intro h0 h1
      constructor <;> · dsimp only; nlinarith
  · intro hmax hd0 l
    have hinv : ∀ (l : List (ℝ × ℝ × ℝ)) (st : BallState),
        st.maxNestedDepth = 1 → 0 ≤ st.nestedDepth →
        (∀ ip, st.inner = some ip → ip.extra = none) →
        ∀ ip', (l.foldl (fun st t => handleRecursiveUpdates st t.1 depth t.2.1 t.2.2) st).inner
          = some ip' → ip'.extra = none := by
      intro l
      induction l with
      | nil =>
        intro st h1 h2 h3 ip' hip'
        rw [List.foldl_nil] at hip'
        exact h3 ip' hip'
      | cons t l ih =>
        intro st h1 h2 h3 ip' hip'
        rw [List.foldl_cons] at hip'
        obtain ⟨p1, p2, p3⟩ := handleRecursiveUpdates_gate_closed st t.1 depth t.2.1 t.2.2 h1 h2 h3
        exact ih _ p1 p2 p3 ip' hip'
    exact hinv l s hmax hd0 hnoextra

/-- C5 witness: the gating instantiated at a concrete state with an inner
level and no tier-2 state. -/
theorem tier2_gating_witness :
    (let ip0 : InnerState :=
      { cx := 0, cy := 0, radius := 15, polygonSides := 4,
        ball := { x := -4, y := -5, vx := 10, vy := -10, radius := 7, gravity := 990 },
        extra := none }
    let s0 : BallState :=
      { x := 0, y := 0, vx := 0, vy := 0, radius := 36, gravity := 900,
        friction := 0.995, nestedDepth := 0, maxNestedDepth := 3, inner := some ip0 }
    ((∃ ip', (handleRecursiveUpdates s0 0.016 0 0.5 0.5).inner = some ip' ∧ ip'.extra.isSome) ↔
      (s0.inner.isSome ∧ s0.nestedDepth + 1 < s0.maxNestedDepth)) ∧
    (∀ (ip : InnerState) (d' : ℤ) (σ₁ σ₂ : ℝ),
      (mkExtra ip d' σ₁ σ₂).polygonSides = max 3 (3 + (d' : ℝ) + 1) ∧
      (mkExtra ip d' σ₁ σ₂).ball.x = 0.35 * ip.ball.x ∧
      (mkExtra ip d' σ₁ σ₂).ball.y = 0.35 * ip.ball.y ∧
      (mkExtra ip d' σ₁ σ₂).ball.radius = max 2 (0.35 * ip.ball.radius) ∧
      (0 ≤ σ₁ → σ₁ < 1 →
        -15 ≤ (mkExtra ip d' σ₁ σ₂).ball.vx ∧ (mkExtra ip d' σ₁ σ₂).ball.vx ≤ 15) ∧
      (0 ≤ σ₂ → σ₂ < 1 →
        -15 ≤ (mkExtra ip d' σ₁ σ₂).ball.vy ∧ (mkExtra ip d' σ₁ σ₂).ball.vy ≤ 15)) ∧
    (s0.maxNestedDepth = 1 → 0 ≤ s0.nestedDepth →
      ∀ l : List (ℝ × ℝ × ℝ), ∀ ip',
        (l.foldl (fun st t => handleRecursiveUpdates st t.1 0 t.2.1 t.2.2) s0).inner
          = some ip' → ip'.extra = none)) :=
  tier2_gating _ 0.016 0 0.5 0.5
    (by rintro ip hip; rw [Option.some_inj] at hip; subst hip; rfl)

lemma setSides_incr (p : Polygon) (h : 3 ≤ p.sides) :
    (p.setSides ((p.sides : ℝ) + 1)).sides = p.sides + 1 := by
  show max 3 ⌊(p.sides : ℝ) + 1⌋ = p.sides + 1
  have hf : ⌊(p.sides : ℝ) + 1⌋ = p.sides + 1 := by
    rw [show ((p.sides : ℝ) + 1) = ((p.sides + 1 : ℤ) : ℝ) by push_cast; ring]
    exact Int.floor_intCast _
  rw [hf]
  exact max_eq_right (by omega)

/-- One driver tick changes the world polygon side count by exactly the
collision outcome: `+1` on a hit, unchanged otherwise. -/
lemma update_sides_eq (w : World) (dt W H ρ₁ ρ₂ : ℝ) (h3 : 3 ≤ w.poly.sides) :
    (update w dt W H ρ₁ ρ₂).poly.sides =
      (if (handleCollisionWithPolygon (integrate (applyGravity w.ball dt) dt) w.poly).2 = true
       then w.poly.sides + 1 else w.poly.sides) := by
  unfold update
  dsimp only
  split_ifs with hcol
  · show (Polygon.updateVertices (w.poly.setSides ((w.poly.sides : ℝ) + 1))).sides
      = w.poly.sides + 1
    show (w.poly.setSides ((w.poly.sides : ℝ) + 1)).sides = w.poly.sides + 1
    exact setSides_incr w.poly h3
  · rfl

/-- C8: across driver ticks the world polygon side count is monotonically
non-decreasing; it increases by exactly 1 on a tick whose collision response
reports true and is unchanged otherwise (and it stays at least 3). -/
theorem world_polygon_growth (w : World) (dt W H ρ₁ ρ₂ : ℝ) (h3 : 3 ≤ w.poly.sides) :
    ((update w dt W H ρ₁ ρ₂).poly.sides =
      (if (handleCollisionWithPolygon (integrate (applyGravity w.ball dt) dt) w.poly).2 = true
       then w.poly.sides + 1 else w.poly.sides)) ∧
    w.poly.sides ≤ (update w dt W H ρ₁ ρ₂).poly.sides ∧
    3 ≤ (update w dt W H ρ₁ ρ₂).poly.sides ∧
    (∀ l : List (ℝ × ℝ × ℝ × ℝ × ℝ),
      w.poly.sides ≤
        (l.foldl (fun wo t => update wo t.1 t.2.1 t.2.2.1 t.2.2.2.1 t.2.2.2.2) w).poly.sides) := by
  have hstep : ∀ (w' : World) (a b c d e : ℝ), 3 ≤ w'.poly.sides →
      w'.poly.sides ≤ (update w' a b c d e).poly.sides ∧ 3 ≤ (update w' a b c d e).poly.sides := by
    intro w' a b c d e h3'
    rw [update_sides_eq w' a b c d e h3']
    split_ifs
    · omega
    · omega
  refine ⟨update_sides_eq w dt W H ρ₁ ρ₂ h3, (hstep w dt W H ρ₁ ρ₂ h3).1,
    (hstep w dt W H ρ₁ ρ₂ h3).2, ?_⟩
  have hind : ∀ (l : List (ℝ × ℝ × ℝ × ℝ × ℝ)) (w' : World), 3 ≤ w'.poly.sides →
      w'.poly.sides ≤
        (l.foldl (fun wo t => update wo t.1 t.2.1 t.2.2.1 t.2.2.2.1 t.2.2.2.2) w').poly.sides := by
    intro l
    induction l with
    | nil =>
      intro w' h3'
      rw [List.foldl_nil]
    | cons t l ih =>
      intro w' h3'
      rw [List.foldl_cons]
      obtain ⟨hle, h3''⟩ := hstep w' t.1 t.2.1 t.2.2.1 t.2.2.2.1 t.2.2.2.2 h3'
      exact le_trans hle (ih _ h3'')
  intro l
  exact hind l w h3

/-- C8 witness: the growth law instantiated at a concrete world (hexagonal
polygon of radius 100, ball at the centre). -/
theorem world_polygon_growth_witness :
    (let w0 : World :=
      { ball :=
          { x := 0, y := -60, vx := 120, vy := 30, radius := 10, gravity := 900,
            friction := 0.995, nestedDepth := 0, maxNestedDepth := 0, inner := none },
        poly := mkPolygon 0 0 100 6 (-(Real.pi / 2)) }
    ((update w0 0.016 800 600 0.5 0.5).poly.sides =
      (if (handleCollisionWithPolygon (integrate (applyGravity w0.ball 0.016) 0.016) w0.poly).2
          = true
       then w0.poly.sides + 1 else w0.poly.sides)) ∧
    w0.poly.sides ≤ (update w0 0.016 800 600 0.5 0.5).poly.sides ∧
    3 ≤ (update w0 0.016 800 600 0.5 0.5).poly.sides ∧
    (∀ l : List (ℝ × ℝ × ℝ × ℝ × ℝ),
      w0.poly.sides ≤
        (l.foldl (fun wo t => update wo t.1 t.2.1 t.2.2.1 t.2.2.2.1 t.2.2.2.2) w0).poly.sides)) :=
  world_polygon_growth _ 0.016 800 600 0.5 0.5 (le_max_left _ _)
